import Mathlib

/-!
# meteostat import tool: the observation import of `main.go`

A shallow embedding of the `import data` action of `main.go` (lines 254-340) and of the two
field parsers `parseFloat32OrNil` / `parseInt16OrNil` (lines 113-129).

* The action is a function from the file (the records `cr.Read()` finds) and a failure schedule
  of the ClickHouse calls to the way the action ends and the list of calls it made
  (`Begin`, `Prepare`, `Exec`, `Commit`, `Close`, and the reads of the csv reader).
* What the store holds after a list of calls is computed by `replay`: the rows of a transaction
  become one committed batch when its `Commit` returns nil, and a call that returns an error
  changes nothing.
* `strconv.ParseInt` (base 10) and the special spellings of `strconv.ParseFloat` are embedded
  from the Go standard library, as is the field count check of `csv.Reader`.
* The number path of `strconv.ParseFloat` and `time.ParseInLocation` work on floating point
  numbers and on the time zone database; they are parameters (`Stdlib`).
-/

namespace Meteostat

/-! ## Configuration (main.go, lines 23-26) -/

/-- Number of rows after which the open transaction is committed. -/
def INSERT_STATION_DATA_BATCH_SIZE : Nat := 250

/-- Number of rows after which a progress line is logged. -/
def INSERT_STATION_DATA_LOG_INTERVALL : Nat := 100000

/-! ## strconv.ParseInt -/

/-- The error kinds of `strconv.NumError` that base 10 parsing can report. -/
inductive NumErr where
  | ErrSyntax
  | ErrRange
  | ErrBitSize
  deriving DecidableEq, Repr

/-- Go: `lower(c) = c | ('x' - 'X')`, on a byte. -/
def lower (c : Nat) : Nat := c ||| 0x20

/-- The digit loop of `strconv.ParseUint` for base 10: `n` is the value read so far, a `uint64`.
Returns the value together with the error, as Go does (`maxVal` on a range error). Go loops over
the bytes of the token; here a character outside ASCII stands for its bytes, which are all 128
or more and so end in the same syntax error. -/
def parseUintLoop (maxVal cutoff : Nat) : List Char → Nat → Nat × Option NumErr
  | [], n => (n, none)
  | ch :: cs, n =>
    let c := ch.toNat
    if 48 ≤ c ∧ c ≤ 57 then
      let d := c - 48
      if d ≥ 10 then (0, some NumErr.ErrSyntax)
      else if n ≥ cutoff then (maxVal, some NumErr.ErrRange)
      else
        let n10 := n * 10 % 2 ^ 64
        let n1 := (n10 + d) % 2 ^ 64
        if n1 < n10 ∨ n1 > maxVal then (maxVal, some NumErr.ErrRange)
        else parseUintLoop maxVal cutoff cs n1
    else if 97 ≤ lower c ∧ lower c ≤ 122 then
      let d := lower c - 97 + 10
      if d ≥ 10 then (0, some NumErr.ErrSyntax)
      else if n ≥ cutoff then (maxVal, some NumErr.ErrRange)
      else
        let n10 := n * 10 % 2 ^ 64
        let n1 := (n10 + d) % 2 ^ 64
        if n1 < n10 ∨ n1 > maxVal then (maxVal, some NumErr.ErrRange)
        else parseUintLoop maxVal cutoff cs n1
    else (0, some NumErr.ErrSyntax)

/-- Go: `strconv.ParseUint(s, 10, bitSize)`, on the characters of `s`. -/
def parseUint (s : List Char) (bitSize : Nat) : Nat × Option NumErr :=
  if s = [] then (0, some NumErr.ErrSyntax)
  else if bitSize > 64 then (0, some NumErr.ErrBitSize)
  else
    let bits := if bitSize = 0 then 64 else bitSize
    let cutoff := (2 ^ 64 - 1) / 10 + 1
    let maxVal := 2 ^ bits - 1
    parseUintLoop maxVal cutoff s 0

/-- Go: the conversion `int64(u)` of a `uint64`. -/
def toInt64 (u : Nat) : Int :=
  if u % 2 ^ 64 < 2 ^ 63 then (u % 2 ^ 64 : Nat) else (u % 2 ^ 64 : Nat) - 2 ^ 64

/-- Go: negation of an `int64`. -/
def negInt64 (n : Int) : Int := (-n + 2 ^ 63) % 2 ^ 64 - 2 ^ 63

/-- Go: `strconv.ParseInt(s, 10, bitSize)`: the value and the error. -/
def parseInt (s : String) (bitSize : Nat) : Int × Option NumErr :=
  match s.data with
  | [] => (0, some NumErr.ErrSyntax)
  | c0 :: rest =>
    let neg := c0 = '-'
    let body := if c0 = '+' ∨ c0 = '-' then rest else c0 :: rest
    match parseUint body bitSize with
    | (_, some NumErr.ErrSyntax) => (0, some NumErr.ErrSyntax)
    | (_, some NumErr.ErrBitSize) => (0, some NumErr.ErrBitSize)
    | (un, _) =>
      let bits := if bitSize = 0 then 64 else bitSize
      let cutoff := 2 ^ (bits - 1) % 2 ^ 64
      if ¬ neg ∧ un ≥ cutoff then (toInt64 (cutoff - 1), some NumErr.ErrRange)
      else if neg ∧ un > cutoff then (negInt64 (toInt64 cutoff), some NumErr.ErrRange)
      else
        let n := toInt64 un
        (if neg then negInt64 n else n, none)

/-- Go: the conversion `int16(v)` of an `int64`. -/
def toInt16 (v : Int) : Int := (v + 2 ^ 15) % 2 ^ 16 - 2 ^ 15

/-! ## strconv.ParseFloat -/

/-- The Go standard library functions called by the import whose code works on floating point
numbers or on the time zone database: `strconv.ParseFloat` on a token that does not start with
a special spelling (`atofNumber`: `readFloat`, the conversion with its range check, and the
check that the whole token is read), the values NaN and infinity (`true`: negative), the
conversion `float32(v)`, and `time.ParseInLocation`. -/
structure Stdlib (Time Loc F64 F32 : Type) where
  atofNumber : String → Nat → Except NumErr F64
  NaN : F64
  Inf : Bool → F64
  float32 : F64 → F32
  ParseInLocation : String → String → Loc → Option Time

/-- Go: the case folding inside `commonPrefixLenIgnoreCase` (`'A'..'Z'` to lower case). -/
def foldUpper (c : Char) : Nat :=
  if 65 ≤ c.toNat ∧ c.toNat ≤ 90 then c.toNat + 32 else c.toNat

/-- Go: `commonPrefixLenIgnoreCase(s, prefix)` of strconv. -/
def commonPrefixLenIgnoreCase : List Char → List Char → Nat
  | c :: s, p :: ps => if foldUpper c = p.toNat then commonPrefixLenIgnoreCase s ps + 1 else 0
  | _, _ => 0

/-- Go: the `infinity` case of `special`: the number of characters of `s` consumed, if any. -/
def specialInf (s : List Char) : Option Nat :=
  let n := commonPrefixLenIgnoreCase s "infinity".data
  let n := if 3 < n ∧ n < 8 then 3 else n
  if n = 3 ∨ n = 8 then some n else none

/-- Go: `special(s)` of strconv: a prefix of `s` that spells `inf`, `infinity` (with an optional
sign) or `nan`, whatever the letter case. Returns the value and the length of the prefix. -/
def special {Time Loc F64 F32 : Type} (lib : Stdlib Time Loc F64 F32) :
    List Char → Option (F64 × Nat)
  | [] => none
  | c :: rest =>
    if c = '+' ∨ c = '-' then
      match specialInf rest with
      | some n => some (lib.Inf (c = '-'), 1 + n)
      | none => none
    else if c = 'i' ∨ c = 'I' then
      match specialInf (c :: rest) with
      | some n => some (lib.Inf false, n)
      | none => none
    else if c = 'n' ∨ c = 'N' then
      if commonPrefixLenIgnoreCase (c :: rest) "nan".data = 3 then some (lib.NaN, 3) else none
    else none

/-- Go: `strconv.ParseFloat(s, bitSize)`: a special spelling must be the whole token; any other
token goes the number path. -/
def ParseFloat {Time Loc F64 F32 : Type} (lib : Stdlib Time Loc F64 F32) (s : String)
    (bitSize : Nat) : Except NumErr F64 :=
  match special lib s.data with
  | some (v, n) => if n ≠ s.data.length then Except.error NumErr.ErrSyntax else Except.ok v
  | none => lib.atofNumber s bitSize

/-! ## Field parsers (main.go, lines 113-129) -/

/-- main.go `parseFloat32OrNil`: `none` is the nil pointer. -/
def parseFloat32OrNil {Time Loc F64 F32 : Type} (lib : Stdlib Time Loc F64 F32)
    (s : String) : Option F32 :=
  match ParseFloat lib s 32 with
  | Except.error _ => none
  | Except.ok v => some (lib.float32 v)

/-- main.go `parseInt16OrNil`: `none` is the nil pointer. -/
def parseInt16OrNil (s : String) : Option Int :=
  match parseInt s 16 with
  | (_, some _) => none
  | (v, none) => some (toInt16 v)

/-! ## Data model -/

/-- One row of `station_data`, the arguments of `stmt.Exec` (main.go, line 299) in the column
order of `CREATE_STATION_DATA` (lines 40-54). -/
structure Record (Time F32 : Type) where
  station : String
  measuredAt : Time
  temp : Option F32
  dwpt : Option F32
  rhum : Option Int
  prcp : Option F32
  snow : Option Int
  wdir : Option Int
  wspd : Option F32
  wpgt : Option F32
  pres : Option F32
  tsun : Option Int
  coco : Option Int
  deriving DecidableEq, Repr

/-- What `cr.Read()` finds next in the file: a record split into its fields, or input that the
reader rejects whatever the field count (a stray quote, a broken gzip stream). -/
inductive CsvLine where
  | fields (rec : List String)
  | bad
  deriving DecidableEq, Repr

/-- The errors the action returns. -/
inductive Err where
  | csv
  | time
  | store
  | file
  deriving DecidableEq, Repr

/-- How the action ends: `return nil`, `return err`, or a run-time panic. -/
inductive Outcome where
  | ok
  | err (e : Err)
  | panic
  deriving DecidableEq, Repr

/-- Result of the column parsing of one record (main.go, lines 289-297). -/
inductive RowResult (Time F32 : Type) where
  | record (r : Record Time F32)
  | err (e : Err)
  | panic
  deriving DecidableEq, Repr

/-- A call the action makes, with its result: `cr.Read()`, and the ClickHouse calls
`conn.Begin()`, `batch.Prepare`, `stmt.Exec`, `batch.Commit()`, `stmt.Close()`
(`ok = true` when the call returns a nil error). -/
inductive Event (Time F32 : Type) where
  | read
  | begin (ok : Bool)
  | prepare (ok : Bool)
  | exec (r : Record Time F32) (ok : Bool)
  | commit (ok : Bool)
  | close (ok : Bool)
  deriving DecidableEq, Repr

/-! ## The import action (main.go, lines 254-340) -/

section Action

variable {Time Loc F64 F32 : Type}

/-- main.go, lines 290-297: `rec[0]`, `rec[1]`, the timestamp, then `rec[2]` .. `rec[12]`, each
with its parser. An index beyond the record panics. -/
def decodeRow (lib : Stdlib Time Loc F64 F32) (timeLocation : Loc) (stationId : String)
    (rec : List String) : RowResult Time F32 :=
  match rec[0]?, rec[1]? with
  | some date, some hour =>
    match lib.ParseInLocation "2006-01-02 15:00:00" (date ++ " " ++ hour ++ ":00:00")
        timeLocation with
    | none => RowResult.err Err.time
    | some datetime =>
      let r : Option (Record Time F32) := do
        let c2 ← rec[2]?
        let c3 ← rec[3]?
        let c4 ← rec[4]?
        let c5 ← rec[5]?
        let c6 ← rec[6]?
        let c7 ← rec[7]?
        let c8 ← rec[8]?
        let c9 ← rec[9]?
        let c10 ← rec[10]?
        let c11 ← rec[11]?
        let c12 ← rec[12]?
        pure {
          station := stationId
          measuredAt := datetime
          temp := parseFloat32OrNil lib c2
          dwpt := parseFloat32OrNil lib c3
          rhum := parseInt16OrNil c4
          prcp := parseFloat32OrNil lib c5
          snow := parseInt16OrNil c6
          wdir := parseInt16OrNil c7
          wspd := parseFloat32OrNil lib c8
          wpgt := parseFloat32OrNil lib c9
          pres := parseFloat32OrNil lib c10
          tsun := parseInt16OrNil c11
          coco := parseInt16OrNil c12 }
      match r with
      | some r => RowResult.record r
      | none => RowResult.panic
  | _, _ => RowResult.panic

/-- Puts the calls `es` in front of the calls of the rest of the run. -/
def emit (es : List (Event Time F32)) (r : Outcome × List (Event Time F32)) :
    Outcome × List (Event Time F32) :=
  (r.1, es ++ r.2)

/-- main.go, lines 279-338: the read loop and the final commit, for batch size `B`.
`calls` is the number of ClickHouse calls made so far (`fails i` says that call number `i` returns
an error), `count` is the `uint64` row counter, `fieldsPerRecord` is the field of that name of
the `csv.Reader` (0 until the first record is read). The progress log has no effect and is
left out. -/
def importLoop (B : Nat) (lib : Stdlib Time Loc F64 F32) (fails : Nat → Bool)
    (timeLocation : Loc) (stationId : String) :
    List CsvLine → (calls count fieldsPerRecord : Nat) → Outcome × List (Event Time F32)
  | [], calls, _, _ =>
    -- `cr.Read()` returns `io.EOF`: leave the loop, final commit, close the statement
    if fails calls then (Outcome.err Err.store, [Event.read, Event.commit false])
    else if fails (calls + 1) then
      (Outcome.err Err.store, [Event.read, Event.commit true, Event.close false])
    else (Outcome.ok, [Event.read, Event.commit true, Event.close true])
  | CsvLine.bad :: _, _, _, _ => (Outcome.err Err.csv, [Event.read])
  | CsvLine.fields rec :: rest, calls, count, fieldsPerRecord =>
    if fieldsPerRecord > 0 ∧ rec.length ≠ fieldsPerRecord then
      (Outcome.err Err.csv, [Event.read])
    else
      let fpr := if fieldsPerRecord = 0 then rec.length else fieldsPerRecord
      match decodeRow lib timeLocation stationId rec with
      | RowResult.panic => (Outcome.panic, [Event.read])
      | RowResult.err e => (Outcome.err e, [Event.read])
      | RowResult.record r =>
        if fails calls then (Outcome.err Err.store, [Event.read, Event.exec r false])
        else
          let count1 := (count + 1) % 2 ^ 64
          if count1 % B = 0 then
            if fails (calls + 1) then
              (Outcome.err Err.store, [Event.read, Event.exec r true, Event.commit false])
            else if fails (calls + 2) then
              (Outcome.err Err.store,
                [Event.read, Event.exec r true, Event.commit true, Event.begin false])
            else if fails (calls + 3) then
              (Outcome.err Err.store,
                [Event.read, Event.exec r true, Event.commit true, Event.begin true,
                  Event.close false])
            else if fails (calls + 4) then
              (Outcome.err Err.store,
                [Event.read, Event.exec r true, Event.commit true, Event.begin true,
                  Event.close true, Event.prepare false])
            else
              emit [Event.read, Event.exec r true, Event.commit true, Event.begin true,
                  Event.close true, Event.prepare true]
                (importLoop B lib fails timeLocation stationId rest (calls + 5) count1 fpr)
          else
            emit [Event.read, Event.exec r true]
              (importLoop B lib fails timeLocation stationId rest (calls + 1) count1 fpr)

/-- main.go, lines 254-340: `conn.Begin()`, `batch.Prepare`, opening the file (`none`: `os.Open`
or `gzip.NewReader` fails), then the loop. Returns how the action ends and the calls it made. -/
def importData (B : Nat) (lib : Stdlib Time Loc F64 F32) (fails : Nat → Bool)
    (timeLocation : Loc) (stationId : String) (file : Option (List CsvLine)) :
    Outcome × List (Event Time F32) :=
  if fails 0 then (Outcome.err Err.store, [Event.begin false])
  else if fails 1 then (Outcome.err Err.store, [Event.begin true, Event.prepare false])
  else
    match file with
    | none => (Outcome.err Err.file, [Event.begin true, Event.prepare true])
    | some lines =>
      emit [Event.begin true, Event.prepare true]
        (importLoop B lib fails timeLocation stationId lines 2 0 0)

/-! ## The store as seen through the calls -/

/-- The state of the store and of the two handles after a sequence of calls: the committed
batches (oldest first), the rows added by `stmt.Exec` and not yet committed, whether the
transaction `batch` and the statement `stmt` are open, the number of transactions begun, and the
transaction on which `stmt` was prepared. -/
structure Store (Time F32 : Type) where
  committed : List (List (Record Time F32))
  pending : List (Record Time F32)
  batchOpen : Bool
  stmtOpen : Bool
  batchId : Nat
  stmtBatch : Nat
  deriving DecidableEq, Repr

/-- Before the first call. -/
def Store.init : Store Time F32 :=
  { committed := [], pending := [], batchOpen := false, stmtOpen := false,
    batchId := 0, stmtBatch := 0 }

/-- Effect of one call. `batch` is a `database/sql` transaction: `Commit` ends it and closes
the statements prepared on it, whether or not it returns an error. A commit that returns nil
makes the rows of the transaction one committed batch; a commit that returns an error commits
no row. Any other call that returns an error changes nothing. -/
def applyEvent (s : Store Time F32) : Event Time F32 → Store Time F32
  | Event.read => s
  | Event.begin true => { s with batchOpen := true, batchId := s.batchId + 1 }
  | Event.prepare true => { s with stmtOpen := true, stmtBatch := s.batchId }
  | Event.exec r true => { s with pending := s.pending ++ [r] }
  | Event.commit true =>
    { s with
      committed := s.committed ++ [s.pending], pending := [], batchOpen := false,
      stmtOpen := s.stmtOpen && !(s.stmtBatch == s.batchId) }
  | Event.commit false =>
    { s with batchOpen := false, stmtOpen := s.stmtOpen && !(s.stmtBatch == s.batchId) }
  | Event.close true => { s with stmtOpen := false }
  | _ => s

/-- The store after the calls `es`, starting from `s`. -/
def replayFrom (s : Store Time F32) (es : List (Event Time F32)) : Store Time F32 :=
  es.foldl applyEvent s

/-- The store after the calls `es` of a run. -/
def replay (es : List (Event Time F32)) : Store Time F32 :=
  replayFrom Store.init es

/-- Number of `batch.Commit()` calls in a trace. -/
def commitCalls : List (Event Time F32) → Nat
  | [] => 0
  | Event.commit _ :: es => commitCalls es + 1
  | _ :: es => commitCalls es

end Action

/-! ## Sample inputs -/

/-- A stand-in for the standard library on the tokens of the sample rows: the number `10.5` is
kept as its text, every other token is a syntax error on the number path, and a time is kept as
the text handed to the parser. -/
def sampleLib : Stdlib String Unit String String where
  atofNumber := fun s _ => if s = "10.5" then Except.ok s else Except.error NumErr.ErrSyntax
  NaN := "NaN"
  Inf := fun neg => if neg then "-Inf" else "+Inf"
  float32 := fun v => v
  ParseInLocation := fun _ value _ => some value

/-- The row `2023-01-01,5,10.5,,,,,,,,,,` split at the commas. -/
def sampleRow1 : List String :=
  ["2023-01-01", "5", "10.5", "", "", "", "", "", "", "", "", "", ""]

/-- The row `2023-01-01,6,,,,,,,,,,,` split at the commas. -/
def sampleRow2 : List String :=
  ["2023-01-01", "6", "", "", "", "", "", "", "", "", "", "", ""]

/-- A row of five columns with a date and an hour. -/
def shortRow : List String := ["2023-01-01", "5", "10.5", "", ""]

/-- No ClickHouse call fails. -/
def noFail : Nat → Bool := fun _ => false

/-! ## Decimal numerals, in the words of the specification -/

/-- An ASCII decimal digit. -/
def IsDigit (c : Char) : Prop := 48 ≤ c.toNat ∧ c.toNat ≤ 57

instance (c : Char) : Decidable (IsDigit c) := by unfold IsDigit; infer_instance

/-- The value of the digits `ds` read after the value `n`. -/
def digitsValueFrom (n : Nat) (ds : List Char) : Nat :=
  ds.foldl (fun v c => v * 10 + (c.toNat - 48)) n

/-- The value of a string of decimal digits. -/
def digitsValue (ds : List Char) : Nat := digitsValueFrom 0 ds

/-- The token `s` is an optional single sign followed by one or more ASCII decimal digits, and
the integer it denotes is `v`, which lies in the range of `int16`. -/
def Int16Numeral (s : String) (v : Int) : Prop :=
  ∃ sign ds : List Char, s.data = sign ++ ds ∧ (sign = [] ∨ sign = ['+'] ∨ sign = ['-']) ∧
    ds ≠ [] ∧ (∀ c ∈ ds, IsDigit c) ∧
    v = (if sign = ['-'] then -(digitsValue ds : Int) else (digitsValue ds : Int)) ∧
    -32768 ≤ v ∧ v ≤ 32767

/-! ## Properties of a run -/

section Properties

variable {Time Loc F64 F32 : Type}

/-- The records handed to `stmt.Exec` with success, in call order. -/
def execRecords : List (Event Time F32) → List (Record Time F32)
  | [] => []
  | Event.exec r true :: es => r :: execRecords es
  | _ :: es => execRecords es

/-- The property `P` holds at every point of the calls `es` made from the store `s`; `P` is
given the store at the point and the calls still to come. -/
def AllAlong (P : Store Time F32 → List (Event Time F32) → Prop) (s : Store Time F32) :
    List (Event Time F32) → Prop
  | [] => P s []
  | e :: es => P s (e :: es) ∧ AllAlong P (applyEvent s e) es

/-- The lines of the file all decode: each is a record of 13 fields whose date and hour the time
parser accepts, and `records` are the rows they give, in file order. -/
def Decoded (lib : Stdlib Time Loc F64 F32) (timeLocation : Loc) (stationId : String)
    (lines : List CsvLine) (records : List (Record Time F32)) : Prop :=
  List.Forall₂
    (fun l r => ∃ rec, l = CsvLine.fields rec ∧ rec.length = 13 ∧
      decodeRow lib timeLocation stationId rec = RowResult.record r)
    lines records

/-- The transaction `batch` and the statement `stmt` are both open, and `stmt` was prepared on
`batch`. -/
def BothOpen (s : Store Time F32) : Prop :=
  s.batchOpen = true ∧ s.stmtOpen = true ∧ s.stmtBatch = s.batchId

/-- The transaction `batch` is ended (or not yet begun) and the statement `stmt` is closed (or
not yet prepared). -/
def BothClosed (s : Store Time F32) : Prop :=
  s.batchOpen = false ∧ s.stmtOpen = false

/-- The calls after which a transaction is open without an open statement: a `Begin` that
succeeds, the `stmt.Close()` that follows it in the flush, and a `Prepare` that fails. -/
def BetweenBeginAndPrepare (e : Event Time F32) : Prop :=
  e = Event.begin true ∨ e = Event.close true ∨ e = Event.close false ∨
    e = Event.prepare false

/-- What holds at a point of a run with batch size `B` that ends with `out`, where `s` is the
store at the point and `rest` are the calls still to come. `W` stands for: the row counter does
not reach `2^64` during the run. -/
def RunInv (B : Nat) (W : Prop) (out : Outcome) (s : Store Time F32)
    (rest : List (Event Time F32)) : Prop :=
  s.pending.length ≤ B ∧ (∀ b ∈ s.committed, b.length ≤ B) ∧
    (∀ q, rest = Event.read :: q → BothOpen s ∧ s.pending.length < B) ∧
    (∀ q, rest = Event.commit false :: q →
      q = [] ∧ out = Outcome.err Err.store ∧ BothOpen s ∧
        (W → ∀ b ∈ s.committed, b.length = B)) ∧
    (∀ r q, rest = Event.exec r false :: q →
      q = [] ∧ out = Outcome.err Err.store ∧ BothOpen s) ∧
    (rest = [] → out = Outcome.ok → BothClosed s) ∧
    (∀ e q, rest = e :: q →
      BothOpen (applyEvent s e) ∨ BothClosed (applyEvent s e) ∨
        (BetweenBeginAndPrepare e ∧ (applyEvent s e).batchOpen = true ∧
          (applyEvent s e).stmtOpen = false))

/-- What holds of the store `s` and the row counter when the loop is about to read a row, with
`n` lines still in the file. -/
def HeadInv (B : Nat) (W : Prop) (count n : Nat) (s : Store Time F32) : Prop :=
  BothOpen s ∧ s.pending.length ≤ count % B ∧ count < 2 ^ 64 ∧
    (∀ b ∈ s.committed, b.length ≤ B) ∧
    (W → count + n < 2 ^ 64 ∧ s.pending.length = count % B ∧ ∀ b ∈ s.committed, b.length = B)

end Properties

section InputRelation

variable {Time Loc F64 F32 : Type}

/-- The line `l` of the file is a record that decodes to the row `r`. -/
def DecodesTo (lib : Stdlib Time Loc F64 F32) (timeLocation : Loc) (stationId : String)
    (l : CsvLine) (r : Record Time F32) : Prop :=
  ∃ rec, l = CsvLine.fields rec ∧ decodeRow lib timeLocation stationId rec = RowResult.record r

end InputRelation

/-- The two sample rows as a file. -/
def sampleFile : List CsvLine := [CsvLine.fields sampleRow1, CsvLine.fields sampleRow2]

/-- A file of as many rows as one batch holds (250 times the second sample row). -/
def fullBatchFile : List CsvLine :=
  List.replicate INSERT_STATION_DATA_BATCH_SIZE (CsvLine.fields sampleRow2)

/-- Only the ClickHouse call number `n` fails. -/
def failsAt (n : Nat) : Nat → Bool := fun i => i == n

/-- The row of `station_data` that the first sample row gives with `sampleLib`. -/
def sampleRecord1 : Record String String :=
  { station := "10637", measuredAt := "2023-01-01 5:00:00", temp := some "10.5", dwpt := none,
    rhum := none, prcp := none, snow := none, wdir := none, wspd := none, wpgt := none,
    pres := none, tsun := none, coco := none }

/-- The row of `station_data` that the second sample row gives with `sampleLib`. -/
def sampleRecord2 : Record String String :=
  { station := "10637", measuredAt := "2023-01-01 6:00:00", temp := none, dwpt := none,
    rhum := none, prcp := none, snow := none, wdir := none, wspd := none, wpgt := none,
    pres := none, tsun := none, coco := none }

/-! ## Lemmas on strconv.ParseInt -/

theorem le_digitsValueFrom (ds : List Char) (n : Nat) : n ≤ digitsValueFrom n ds := by
  induction ds generalizing n with
  | nil => simp [digitsValueFrom]
  | cons c cs ih =>
    have h := ih (n * 10 + (c.toNat - 48))
    simp only [digitsValueFrom, List.foldl_cons] at h ⊢
    omega

theorem digitsValueFrom_cons (c : Char) (cs : List Char) (n : Nat) :
    digitsValueFrom n (c :: cs) = digitsValueFrom (n * 10 + (c.toNat - 48)) cs := rfl

/-- The digit loop at 16 bits: it returns the value when all characters are digits and the value
fits, and an error otherwise. -/
theorem parseUintLoop_spec (cutoff : Nat) (hc : 65535 < cutoff) (ds : List Char) (n : Nat)
    (hn : n ≤ 65535) :
    ((∀ c ∈ ds, IsDigit c) ∧ digitsValueFrom n ds ≤ 65535 ∧
        parseUintLoop 65535 cutoff ds n = (digitsValueFrom n ds, none)) ∨
      (¬ ((∀ c ∈ ds, IsDigit c) ∧ digitsValueFrom n ds ≤ 65535) ∧
        (parseUintLoop 65535 cutoff ds n = (0, some NumErr.ErrSyntax) ∨
          parseUintLoop 65535 cutoff ds n = (65535, some NumErr.ErrRange))) := by
  induction ds generalizing n with
  | nil => left; simp [digitsValueFrom, parseUintLoop, hn]
  | cons c cs ih =>
    by_cases hd : 48 ≤ c.toNat ∧ c.toNat ≤ 57
    · have hd10 : ¬ (c.toNat - 48 ≥ 10) := by omega
      have hcut : ¬ (n ≥ cutoff) := by omega
      have h1 : n * 10 % 2 ^ 64 = n * 10 := Nat.mod_eq_of_lt (by norm_num; omega)
      have h2 : (n * 10 + (c.toNat - 48)) % 2 ^ 64 = n * 10 + (c.toNat - 48) :=
        Nat.mod_eq_of_lt (by norm_num; omega)
      by_cases hbig : n * 10 + (c.toNat - 48) > 65535
      · right
        have hle := le_digitsValueFrom cs (n * 10 + (c.toNat - 48))
        refine ⟨?_, Or.inr ?_⟩
        · rw [digitsValueFrom_cons]; omega
        · simp only [parseUintLoop, hd, hd10, hcut, h1, h2, hbig]
          simp
      · have hstep : parseUintLoop 65535 cutoff (c :: cs) n =
            parseUintLoop 65535 cutoff cs (n * 10 + (c.toNat - 48)) := by
          simp only [parseUintLoop, hd, hd10, hcut, h1, h2, hbig]
          simp
        rw [hstep, digitsValueFrom_cons]
        rcases ih (n * 10 + (c.toNat - 48)) (by omega) with ⟨ha, hv, he⟩ | ⟨hna, he⟩
        · left
          refine ⟨?_, hv, he⟩
          intro x hx
          rcases List.mem_cons.1 hx with rfl | hx
          · exact hd
          · exact ha x hx
        · right
          refine ⟨?_, he⟩
          intro hh
          exact hna ⟨fun x hx => hh.1 x (List.mem_cons_of_mem _ hx), hh.2⟩
    · right
      refine ⟨?_, Or.inl ?_⟩
      · intro hh
        exact hd (hh.1 c (List.mem_cons_self _ _))
      · simp only [parseUintLoop, hd]
        by_cases hl : 97 ≤ lower c.toNat ∧ lower c.toNat ≤ 122
        · simp [hl]
        · simp [hl]

/-- `strconv.ParseUint(body, 10, 16)`: the value when `body` is a non-empty string of digits with
a value below `2^16`, an error otherwise. -/
theorem parseUint_spec (body : List Char) :
    ((body ≠ [] ∧ (∀ c ∈ body, IsDigit c) ∧ digitsValue body ≤ 65535) ∧
        parseUint body 16 = (digitsValue body, none)) ∨
      (¬ (body ≠ [] ∧ (∀ c ∈ body, IsDigit c) ∧ digitsValue body ≤ 65535) ∧
        (parseUint body 16 = (0, some NumErr.ErrSyntax) ∨
          parseUint body 16 = (65535, some NumErr.ErrRange))) := by
  by_cases hb : body = []
  · right
    subst hb
    exact ⟨by simp, Or.inl (by simp [parseUint])⟩
  · have hu : parseUint body 16 = parseUintLoop 65535 ((2 ^ 64 - 1) / 10 + 1) body 0 := by
      simp [parseUint, hb]
    rw [hu]
    rcases parseUintLoop_spec ((2 ^ 64 - 1) / 10 + 1) (by norm_num) body 0 (by omega) with
      ⟨ha, hv, he⟩ | ⟨hna, he⟩
    · left; exact ⟨⟨hb, ha, hv⟩, he⟩
    · right
      refine ⟨?_, he⟩
      intro hh
      exact hna ⟨hh.2.1, hh.2.2⟩

/-- `parseInt16OrNil` on a token that starts with `c0`, when what follows the sign is a number
below `2^16`. -/
theorem parseInt16OrNil_good (s : String) (c0 : Char) (rest : List Char)
    (hs : s.data = c0 :: rest)
    (hg : (if c0 = '+' ∨ c0 = '-' then rest else c0 :: rest) ≠ [] ∧
      (∀ c ∈ (if c0 = '+' ∨ c0 = '-' then rest else c0 :: rest), IsDigit c) ∧
      digitsValue (if c0 = '+' ∨ c0 = '-' then rest else c0 :: rest) ≤ 65535) :
    parseInt16OrNil s =
      if c0 = '-' then
        (if digitsValue (if c0 = '+' ∨ c0 = '-' then rest else c0 :: rest) > 32768 then none
          else some (-(digitsValue (if c0 = '+' ∨ c0 = '-' then rest else c0 :: rest) : Int)))
      else
        (if digitsValue (if c0 = '+' ∨ c0 = '-' then rest else c0 :: rest) ≥ 32768 then none
          else some (digitsValue (if c0 = '+' ∨ c0 = '-' then rest else c0 :: rest) : Int)) := by
  generalize hbody : (if c0 = '+' ∨ c0 = '-' then rest else c0 :: rest) = body at hg ⊢
  rcases parseUint_spec body with ⟨_, he⟩ | ⟨hn, _⟩
  · have hv := hg.2.2
    generalize digitsValue body = u at he hv ⊢
    simp only [parseInt16OrNil, parseInt, hs, hbody, he]
    by_cases hneg : c0 = '-'
    · by_cases hu : u > 32768
      · simp [hneg, hu]
      · have hu' : ¬ (32768 < u) := hu
        simp [hneg, hu', toInt64, negInt64, toInt16]
        omega
    · by_cases hu : u ≥ 32768
      · simp [hneg, hu]
      · have hu' : ¬ (32768 ≤ u) := hu
        simp [hneg, hu', toInt64, toInt16]
        omega
  · exact absurd hg hn

/-- `parseInt16OrNil` returns nil when what follows the sign is not a number below `2^16`. -/
theorem parseInt16OrNil_bad (s : String) (c0 : Char) (rest : List Char)
    (hs : s.data = c0 :: rest)
    (hb : ¬ ((if c0 = '+' ∨ c0 = '-' then rest else c0 :: rest) ≠ [] ∧
      (∀ c ∈ (if c0 = '+' ∨ c0 = '-' then rest else c0 :: rest), IsDigit c) ∧
      digitsValue (if c0 = '+' ∨ c0 = '-' then rest else c0 :: rest) ≤ 65535)) :
    parseInt16OrNil s = none := by
  generalize hbody : (if c0 = '+' ∨ c0 = '-' then rest else c0 :: rest) = body at hb ⊢
  rcases parseUint_spec body with ⟨hg, _⟩ | ⟨_, he | he⟩
  · exact absurd hg hb
  · simp [parseInt16OrNil, parseInt, hs, hbody, he]
  · simp only [parseInt16OrNil, parseInt, hs, hbody, he]
    by_cases hneg : c0 = '-'
    · simp [hneg]
    · simp [hneg]

/-- `parseInt16OrNil` returns nil on the empty token. -/
theorem parseInt16OrNil_empty (s : String) (hs : s.data = []) : parseInt16OrNil s = none := by
  simp [parseInt16OrNil, parseInt, hs]

/-- A numeral in the words of the specification, read off the first character of the token. -/
theorem int16Numeral_cons (s : String) (c0 : Char) (rest : List Char) (hs : s.data = c0 :: rest)
    (v : Int) :
    Int16Numeral s v ↔
      ((if c0 = '+' ∨ c0 = '-' then rest else c0 :: rest) ≠ [] ∧
        (∀ c ∈ (if c0 = '+' ∨ c0 = '-' then rest else c0 :: rest), IsDigit c) ∧
        v = (if c0 = '-' then
              -(digitsValue (if c0 = '+' ∨ c0 = '-' then rest else c0 :: rest) : Int)
            else (digitsValue (if c0 = '+' ∨ c0 = '-' then rest else c0 :: rest) : Int)) ∧
        -32768 ≤ v ∧ v ≤ 32767) := by
  have hplus : ¬ IsDigit '+' := by decide
  have hminus : ¬ IsDigit '-' := by decide
  constructor
  · rintro ⟨sign, ds, hsd, hsign, hne, hdig, hv, hlo, hhi⟩
    rw [hs] at hsd
    rcases hsign with rfl | rfl | rfl
    · simp only [List.nil_append] at hsd
      subst hsd
      have h0 : IsDigit c0 := hdig c0 (List.mem_cons_self _ _)
      have hp : c0 ≠ '+' := fun h => hplus (h ▸ h0)
      have hm : c0 ≠ '-' := fun h => hminus (h ▸ h0)
      simp only [hp, hm, or_self, if_false]
      refine ⟨hne, hdig, ?_, hlo, hhi⟩
      simpa using hv
    · simp only [List.singleton_append, List.cons.injEq] at hsd
      obtain ⟨rfl, rfl⟩ := hsd
      refine ⟨by simpa using hne, by simpa using hdig, ?_, hlo, hhi⟩
      simpa using hv
    · simp only [List.singleton_append, List.cons.injEq] at hsd
      obtain ⟨rfl, rfl⟩ := hsd
      refine ⟨by simpa using hne, by simpa using hdig, ?_, hlo, hhi⟩
      simpa using hv
  · rintro ⟨hne, hdig, hv, hlo, hhi⟩
    by_cases hm : c0 = '-'
    · subst hm
      refine ⟨['-'], rest, by simpa using hs, by simp, by simpa using hne, by simpa using hdig,
        ?_, hlo, hhi⟩
      simpa using hv
    · by_cases hp : c0 = '+'
      · subst hp
        refine ⟨['+'], rest, by simpa using hs, by simp, by simpa using hne,
          by simpa using hdig, ?_, hlo, hhi⟩
        simpa using hv
      · simp only [hp, hm, or_self, if_false] at hne hdig hv
        refine ⟨[], c0 :: rest, by simpa using hs, by simp, hne, hdig, ?_, hlo, hhi⟩
        simpa using hv

/-- `parseInt16OrNil` returns `v` exactly on the numerals of `v` in the range of `int16`. -/
theorem parseInt16OrNil_some_iff (s : String) (v : Int) :
    parseInt16OrNil s = some v ↔ Int16Numeral s v := by
  cases hs : s.data with
  | nil =>
    rw [parseInt16OrNil_empty s hs]
    constructor
    · intro h; cases h
    · rintro ⟨sign, ds, hsd, _, hne, _⟩
      rw [hs] at hsd
      have := List.append_eq_nil.1 hsd.symm
      exact absurd this.2 hne
  | cons c0 rest =>
    rw [int16Numeral_cons s c0 rest hs v]
    by_cases hg : (if c0 = '+' ∨ c0 = '-' then rest else c0 :: rest) ≠ [] ∧
        (∀ c ∈ (if c0 = '+' ∨ c0 = '-' then rest else c0 :: rest), IsDigit c) ∧
        digitsValue (if c0 = '+' ∨ c0 = '-' then rest else c0 :: rest) ≤ 65535
    · rw [parseInt16OrNil_good s c0 rest hs hg]
      generalize (if c0 = '+' ∨ c0 = '-' then rest else c0 :: rest) = body at hg ⊢
      generalize digitsValue body = u at hg ⊢
      by_cases hm : c0 = '-'
      · simp only [hm, if_true]
        by_cases hu : u > 32768
        · simp only [hu, if_true]
          constructor
          · intro h; cases h
          · rintro ⟨_, _, hv, hlo, _⟩; omega
        · simp only [hu, if_false, Option.some.injEq]
          constructor
          · intro h; exact ⟨hg.1, hg.2.1, h.symm, by omega, by omega⟩
          · rintro ⟨_, _, hv, _, _⟩; exact hv.symm
      · simp only [hm, if_false]
        by_cases hu : u ≥ 32768
        · simp only [hu, if_true]
          constructor
          · intro h; cases h
          · rintro ⟨_, _, hv, _, hhi⟩; omega
        · simp only [hu, if_false, Option.some.injEq]
          constructor
          · intro h; exact ⟨hg.1, hg.2.1, h.symm, by omega, by omega⟩
          · rintro ⟨_, _, hv, _, _⟩; exact hv.symm
    · rw [parseInt16OrNil_bad s c0 rest hs hg]
      constructor
      · intro h; cases h
      · rintro ⟨hne, hdig, hv, hlo, hhi⟩
        refine absurd ⟨hne, hdig, ?_⟩ hg
        generalize digitsValue (if c0 = '+' ∨ c0 = '-' then rest else c0 :: rest) = u at hv ⊢
        by_cases hm : c0 = '-'
        · simp only [hm, if_true] at hv; omega
        · simp only [hm, if_false] at hv; omega

/-- `parseInt16OrNil` returns nil on every token that is not a numeral in the range of `int16`. -/
theorem parseInt16OrNil_none_of_not_numeral (s : String) (h : ¬ ∃ v, Int16Numeral s v) :
    parseInt16OrNil s = none := by
  cases hr : parseInt16OrNil s with
  | none => rfl
  | some v => exact absurd ⟨v, (parseInt16OrNil_some_iff s v).1 hr⟩ h

/-- C10. For every string `s`, `parseInt16OrNil s` is non-nil exactly when `s` is an optional
single `+` or `-` followed by one or more ASCII decimal digits whose value lies in
`[-32768, 32767]`, and the value returned is then that integer, unchanged by the conversion to
`int16`; the token `55.0` gives nil. -/
theorem parseInt16OrNil_eq_some_iff :
    (∀ (s : String) (v : Int), parseInt16OrNil s = some v ↔ Int16Numeral s v) ∧
      (∀ s : String, parseInt16OrNil s ≠ none ↔ ∃ v, Int16Numeral s v) ∧
      parseInt16OrNil "55.0" = none := by
  have main := parseInt16OrNil_some_iff
  refine ⟨main, ?_, by decide⟩
  intro s
  constructor
  · intro h
    cases hr : parseInt16OrNil s with
    | none => exact absurd hr h
    | some v => exact ⟨v, (main s v).1 hr⟩
  · rintro ⟨v, hv⟩ h
    rw [(main s v).2 hv] at h
    cases h

/-! ## C2: tokens the parsers reject -/

/-- C2, as stated, fails: the tokens `NaN` and `Infinity` hold no digit, and whatever the number
path of `strconv.ParseFloat` does, `parseFloat32OrNil` returns a non-nil value for each. -/
theorem parseFloat32OrNil_special_spelling_not_nil :
    (∀ c ∈ "NaN".data, ¬ IsDigit c) ∧ (∀ c ∈ "Infinity".data, ¬ IsDigit c) ∧
      ∀ lib : Stdlib String Unit String String,
        parseFloat32OrNil lib "NaN" = some (lib.float32 lib.NaN) ∧
          parseFloat32OrNil lib "Infinity" = some (lib.float32 (lib.Inf false)) :=
  ⟨by decide, by decide, fun _ => ⟨rfl, rfl⟩⟩

/-- C2, amended. For every token `t`: when `strconv.ParseFloat(t, 32)` reports an error,
`parseFloat32OrNil t` is nil; when `t` is not an optional sign followed by decimal digits with a
value in `[-32768, 32767]`, `parseInt16OrNil t` is nil. Both parsers are total functions into an
optional value: neither returns an error or panics. -/
theorem parsers_nil_on_rejected_token {Time Loc F64 F32 : Type} (lib : Stdlib Time Loc F64 F32)
    (t : String) :
    ((∃ e, ParseFloat lib t 32 = Except.error e) → parseFloat32OrNil lib t = none) ∧
      ((¬ ∃ v, Int16Numeral t v) → parseInt16OrNil t = none) := by
  refine ⟨?_, parseInt16OrNil_none_of_not_numeral t⟩
  rintro ⟨e, he⟩
  simp [parseFloat32OrNil, he]

/-- C2, amended, on the empty token: both parsers return nil. -/
theorem parsers_nil_on_rejected_token_witness :
    parseFloat32OrNil sampleLib "" = none ∧ parseInt16OrNil "" = none :=
  ⟨(parsers_nil_on_rejected_token sampleLib "").1 ⟨NumErr.ErrSyntax, rfl⟩,
    (parsers_nil_on_rejected_token sampleLib "").2 (by
      rintro ⟨v, sign, ds, hsd, _, hne, _⟩
      have h := List.append_eq_nil.1 hsd.symm
      exact hne h.2)⟩

/-! ## Lemmas on runs -/

section RunLemmas

variable {Time Loc F64 F32 : Type}

theorem replayFrom_append (s : Store Time F32) (p q : List (Event Time F32)) :
    replayFrom s (p ++ q) = replayFrom (replayFrom s p) q := by
  simp [replayFrom, List.foldl_append]

theorem replayFrom_cons (s : Store Time F32) (e : Event Time F32) (es : List (Event Time F32)) :
    replayFrom s (e :: es) = replayFrom (applyEvent s e) es := rfl

theorem replayFrom_nil (s : Store Time F32) : replayFrom s [] = s := rfl

/-- A property that holds all along the calls holds at each split of them. -/
theorem AllAlong.split {P : Store Time F32 → List (Event Time F32) → Prop}
    (p q : List (Event Time F32)) (s : Store Time F32) (h : AllAlong P s (p ++ q)) :
    P (replayFrom s p) q := by
  induction p generalizing s with
  | nil =>
    cases q with
    | nil => exact h
    | cons e es => exact h.1
  | cons e es ih => exact ih (applyEvent s e) h.2

theorem step_count (B count : Nat) (hc : count < 2 ^ 64) (m : Nat) (hm : m ≤ count % B)
    (hB : 1 ≤ B) (h0 : ¬ (count + 1) % 2 ^ 64 % B = 0) :
    m + 1 ≤ (count + 1) % 2 ^ 64 % B ∧ (count + 1) % 2 ^ 64 < 2 ^ 64 := by
  have hpos : 0 < 2 ^ 64 := by norm_num
  refine ⟨?_, Nat.mod_lt _ hpos⟩
  by_cases hw : count + 1 < 2 ^ 64
  · rw [Nat.mod_eq_of_lt hw] at h0 ⊢
    have h1 : (count + 1) % B = (count % B + 1) % B := (Nat.mod_add_mod count B 1).symm
    have hlt : count % B < B := Nat.mod_lt _ (by omega)
    by_cases hb : count % B + 1 < B
    · rw [h1, Nat.mod_eq_of_lt hb]; omega
    · have : count % B + 1 = B := by omega
      rw [h1, this, Nat.mod_self] at h0
      exact absurd rfl h0
  · have : count + 1 = 2 ^ 64 := by omega
    rw [this, Nat.mod_self, Nat.zero_mod] at h0
    exact absurd rfl h0

theorem step_exact (B count n : Nat) (hn : count + (n + 1) < 2 ^ 64) (hB : 1 ≤ B) :
    (count + 1) % 2 ^ 64 = count + 1 ∧ (count + 1) % 2 ^ 64 + n < 2 ^ 64 ∧
      ((count + 1) % B = 0 → count % B + 1 = B) ∧
      (¬ (count + 1) % B = 0 → count % B + 1 = (count + 1) % B) := by
  have hw : (count + 1) % 2 ^ 64 = count + 1 := Nat.mod_eq_of_lt (by omega)
  have h1 : (count + 1) % B = (count % B + 1) % B := (Nat.mod_add_mod count B 1).symm
  have hlt : count % B < B := Nat.mod_lt _ (by omega)
  refine ⟨hw, by omega, ?_, ?_⟩
  · intro h0
    by_cases hb : count % B + 1 < B
    · rw [h1, Nat.mod_eq_of_lt hb] at h0; omega
    · omega
  · intro h0
    by_cases hb : count % B + 1 < B
    · rw [h1, Nat.mod_eq_of_lt hb]
    · have : count % B + 1 = B := by omega
      rw [h1, this, Nat.mod_self] at h0
      exact absurd rfl h0

theorem ceil_div_of_not_dvd (n B : Nat) (hB : 1 ≤ B) (hr : n % B ≠ 0) :
    (n + B - 1) / B = n / B + 1 := by
  have hlt : n % B < B := Nat.mod_lt _ (by omega)
  have hsplit := Nat.div_add_mod n B
  have hrew : n + B - 1 = (n % B - 1) + B * (n / B + 1) := by
    rw [Nat.mul_add, Nat.mul_one]
    omega
  rw [hrew, Nat.add_mul_div_left _ _ (by omega : 0 < B), Nat.div_eq_of_lt (by omega)]
  omega

end RunLemmas
section LoopInvariant

variable {Time Loc F64 F32 : Type}

theorem emit_fst (es : List (Event Time F32)) (r : Outcome × List (Event Time F32)) :
    (emit es r).1 = r.1 := rfl

theorem emit_snd (es : List (Event Time F32)) (r : Outcome × List (Event Time F32)) :
    (emit es r).2 = es ++ r.2 := rfl

/-- `RunInv` holds all along the loop when it is entered with `HeadInv`. -/
theorem importLoop_allAlong (B : Nat) (hB : 1 ≤ B) (W : Prop) (lib : Stdlib Time Loc F64 F32)
    (fails : Nat → Bool) (timeLocation : Loc) (stationId : String) (lines : List CsvLine) :
    ∀ (calls count fpr : Nat) (s : Store Time F32), HeadInv B W count lines.length s →
      AllAlong
        (RunInv B W (importLoop B lib fails timeLocation stationId lines calls count fpr).1)
        s (importLoop B lib fails timeLocation stationId lines calls count fpr).2 := by
  induction lines with
  | nil =>
    intro calls count fpr s hs
    obtain ⟨⟨hbo, hso, hsb⟩, hp, hc, hcm, hW⟩ := hs
    have hlt : s.pending.length < B := lt_of_le_of_lt hp (Nat.mod_lt _ (by omega))
    have hle : s.pending.length ≤ B := by omega
    obtain ⟨committed, pending, bo, so, bid, sb⟩ := s
    simp only at hbo hso hsb hp hcm hlt hle hW
    subst hbo hso hsb
    have hcmP : ∀ b, b ∈ committed ∨ b = pending → b.length ≤ B := by
      rintro b (hb | rfl)
      · exact hcm b hb
      · exact hle
    have hWc : W → ∀ b ∈ committed, b.length = B := fun w => (hW w).2.2
    by_cases h0 : fails calls = true
    · simp [importLoop, h0, AllAlong, RunInv, applyEvent, BothOpen, BothClosed, BetweenBeginAndPrepare, hle, hlt]
      all_goals repeat' apply And.intro
      all_goals first | exact hcm | exact hWc
    · by_cases h1 : fails (calls + 1) = true
      · simp [importLoop, h0, h1, AllAlong, RunInv, applyEvent, BothOpen, BothClosed, BetweenBeginAndPrepare, hle, hlt]
        all_goals repeat' apply And.intro
        all_goals first | exact hcm | exact hWc | exact hcmP
      · simp [importLoop, h0, h1, AllAlong, RunInv, applyEvent, BothOpen, BothClosed, BetweenBeginAndPrepare, hle, hlt]
        all_goals repeat' apply And.intro
        all_goals first | exact hcm | exact hWc | exact hcmP
  | cons l rest ih =>
    intro calls count fpr s hs
    obtain ⟨⟨hbo, hso, hsb⟩, hp, hc, hcm, hW⟩ := hs
    have hlt : s.pending.length < B := lt_of_le_of_lt hp (Nat.mod_lt _ (by omega))
    have hle : s.pending.length ≤ B := by omega
    obtain ⟨committed, pending, bo, so, bid, sb⟩ := s
    simp only [List.length_cons] at hbo hso hsb hp hcm hlt hle hW
    subst hbo hso hsb
    have hWc : W → ∀ b ∈ committed, b.length = B := fun w => (hW w).2.2
    cases l with
    | bad =>
      simp [importLoop, AllAlong, RunInv, applyEvent, BothOpen, BothClosed, BetweenBeginAndPrepare, hle, hlt]
      exact hcm
    | fields rec =>
      rw [importLoop]
      by_cases hf : fpr > 0 ∧ rec.length ≠ fpr
      · simp [hf, AllAlong, RunInv, applyEvent, BothOpen, BothClosed, BetweenBeginAndPrepare, hle, hlt]
        exact hcm
      · rw [if_neg hf]
        cases hd : decodeRow lib timeLocation stationId rec with
        | panic =>
          simp [AllAlong, RunInv, applyEvent, BothOpen, BothClosed, BetweenBeginAndPrepare, hle, hlt]
          exact hcm
        | err e =>
          simp [AllAlong, RunInv, applyEvent, BothOpen, BothClosed, BetweenBeginAndPrepare, hle, hlt]
          exact hcm
        | record r =>
          simp only []
          by_cases h0 : fails calls = true
          · simp [h0, AllAlong, RunInv, applyEvent, BothOpen, BothClosed, BetweenBeginAndPrepare, hle, hlt]
            exact hcm
          · rw [if_neg h0]
            have hle1 : pending.length + 1 ≤ B := by omega
            have hcmR : ∀ b, b ∈ committed ∨ b = pending ++ [r] → b.length ≤ B := by
              rintro b (hb | rfl)
              · exact hcm b hb
              · simpa using hle1
            by_cases hz : (count + 1) % 2 ^ 64 % B = 0
            · rw [if_pos hz]
              have hWR : W → ∀ b, b ∈ committed ∨ b = pending ++ [r] → b.length = B := by
                intro w
                obtain ⟨hn, hpe, hce⟩ := hW w
                obtain ⟨e1, -, e3, -⟩ := step_exact B count rest.length hn hB
                rw [e1] at hz
                rintro b (hb | rfl)
                · exact hce b hb
                · have := e3 hz
                  simp only [List.length_append, List.length_singleton]
                  omega
              have hWn : W → (count + 1) % 2 ^ 64 + rest.length < 2 ^ 64 := fun w =>
                (step_exact B count rest.length (hW w).1 hB).2.1
              by_cases h1 : fails (calls + 1) = true
              · simp [h1, AllAlong, RunInv, applyEvent, BothOpen, BothClosed, BetweenBeginAndPrepare, hle, hlt, hle1]
                all_goals repeat' apply And.intro
                all_goals first | exact hcm | exact hWc
              · rw [if_neg h1]
                by_cases h2 : fails (calls + 2) = true
                · simp [h2, AllAlong, RunInv, applyEvent, BothOpen, BothClosed, BetweenBeginAndPrepare, hle, hlt, hle1]
                  all_goals repeat' apply And.intro
                  all_goals first | exact hcm | exact hWc | exact hcmR
                · rw [if_neg h2]
                  by_cases h3 : fails (calls + 3) = true
                  · simp [h3, AllAlong, RunInv, applyEvent, BothOpen, BothClosed, BetweenBeginAndPrepare, hle, hlt, hle1]
                    all_goals repeat' apply And.intro
                    all_goals first | exact hcm | exact hWc | exact hcmR
                  · rw [if_neg h3]
                    by_cases h4 : fails (calls + 4) = true
                    · simp [h4, AllAlong, RunInv, applyEvent, BothOpen, BothClosed, BetweenBeginAndPrepare, hle, hlt,
                        hle1]
                      all_goals repeat' apply And.intro
                      all_goals first | exact hcm | exact hWc | exact hcmR
                    · rw [if_neg h4, emit_fst, emit_snd]
                      simp only [List.cons_append, List.nil_append, AllAlong, applyEvent]
                      refine ⟨?_, ?_, ?_, ?_, ?_, ?_, ih _ _ _ _ ?_⟩
                      all_goals
                        simp [RunInv, HeadInv, BothOpen, BothClosed, BetweenBeginAndPrepare, applyEvent, hle, hlt, hle1, hz]
                      all_goals repeat' apply And.intro
                      all_goals
                        first
                        | exact hcm
                        | exact hcmR
                        | exact Nat.mod_lt _ (by norm_num)
                        | exact fun w => ⟨by simpa using hWn w, by simpa using hz.symm, hWR w⟩
            · have hs := step_count B count hc pending.length hp hB hz
              have hWn : W → (count + 1) % 2 ^ 64 + rest.length < 2 ^ 64 ∧
                  pending.length + 1 = (count + 1) % 2 ^ 64 % B := by
                intro w
                obtain ⟨hn, hpe, hce⟩ := hW w
                obtain ⟨e1, e2, -, e4⟩ := step_exact B count rest.length hn hB
                rw [e1] at hz ⊢
                exact ⟨by omega, by rw [hpe]; exact e4 hz⟩
              rw [if_neg hz, emit_fst, emit_snd]
              simp only [List.cons_append, List.nil_append, AllAlong, applyEvent]
              refine ⟨?_, ?_, ih _ _ _ _ ?_⟩
              all_goals
                simp [RunInv, HeadInv, BothOpen, BothClosed, BetweenBeginAndPrepare, applyEvent, hle, hlt, hle1, hz]
              all_goals repeat' apply And.intro
              all_goals
                first
                | exact hcm
                | (simpa using hs.1)
                | (simpa using hs.2)
                | exact fun w => ⟨by simpa using (hWn w).1, by simpa using (hWn w).2, hWc w⟩

end LoopInvariant

section RunFacts

variable {Time Loc F64 F32 : Type}

/-- `RunInv` holds all along a run of the action. -/
theorem importData_allAlong (B : Nat) (hB : 1 ≤ B) (W : Prop) (lib : Stdlib Time Loc F64 F32)
    (fails : Nat → Bool) (timeLocation : Loc) (stationId : String)
    (file : Option (List CsvLine))
    (hW : W → ∀ lines, file = some lines → lines.length < 2 ^ 64) :
    AllAlong (RunInv B W (importData B lib fails timeLocation stationId file).1) Store.init
      (importData B lib fails timeLocation stationId file).2 := by
  unfold importData
  by_cases h0 : fails 0 = true
  · simp [h0, AllAlong, RunInv, applyEvent, BothOpen, BothClosed, BetweenBeginAndPrepare, Store.init]
  · rw [if_neg h0]
    by_cases h1 : fails 1 = true
    · simp [h1, AllAlong, RunInv, applyEvent, BothOpen, BothClosed, BetweenBeginAndPrepare, Store.init]
    · rw [if_neg h1]
      cases file with
      | none => simp [AllAlong, RunInv, applyEvent, BothOpen, BothClosed, BetweenBeginAndPrepare, Store.init]
      | some lines =>
        simp only [emit_fst, emit_snd, List.cons_append, List.nil_append, AllAlong, applyEvent]
        refine ⟨?_, ?_, importLoop_allAlong B hB W lib fails timeLocation stationId lines _ _ _
          _ ?_⟩
        · simp [RunInv, Store.init, applyEvent, BothOpen, BothClosed, BetweenBeginAndPrepare]
        · simp [RunInv, Store.init, applyEvent, BothOpen, BothClosed, BetweenBeginAndPrepare]
        · refine ⟨by simp [BothOpen, Store.init], by simp [Store.init], by norm_num,
            by simp [Store.init], fun w => ⟨?_, by simp [Store.init], by simp [Store.init]⟩⟩
          simpa using hW w lines rfl

/-- The committed rows followed by the rows not yet committed are the rows handed to `Exec`. -/
theorem replayFrom_join (p : List (Event Time F32)) (s : Store Time F32) :
    (replayFrom s p).committed.flatten ++ (replayFrom s p).pending =
      s.committed.flatten ++ s.pending ++ execRecords p := by
  induction p generalizing s with
  | nil => simp [replayFrom_nil, execRecords]
  | cons e es ih =>
    rw [replayFrom_cons, ih]
    cases e with
    | read => simp [applyEvent, execRecords]
    | begin ok => cases ok <;> simp [applyEvent, execRecords]
    | prepare ok => cases ok <;> simp [applyEvent, execRecords]
    | exec r ok => cases ok <;> simp [applyEvent, execRecords]
    | commit ok => cases ok <;> simp [applyEvent, execRecords]
    | close ok => cases ok <;> simp [applyEvent, execRecords]

/-- When no commit fails before the end of `p`, the committed batches are as many as the commit
calls. -/
theorem committed_length_of_allAlong (B : Nat) (W : Prop) (out : Outcome)
    (p q : List (Event Time F32)) (s : Store Time F32)
    (h : AllAlong (RunInv B W out) s (p ++ Event.commit false :: q)) :
    (replayFrom s p).committed.length = s.committed.length + commitCalls p := by
  induction p generalizing s with
  | nil => simp [replayFrom_nil, commitCalls]
  | cons e es ih =>
    have h2 := ih (applyEvent s e) h.2
    have h1 := h.1.2.2.2.1
    rw [replayFrom_cons, h2]
    cases e with
    | read => simp [applyEvent, commitCalls]
    | begin ok => cases ok <;> simp [applyEvent, commitCalls]
    | prepare ok => cases ok <;> simp [applyEvent, commitCalls]
    | exec r ok => cases ok <;> simp [applyEvent, commitCalls]
    | close ok => cases ok <;> simp [applyEvent, commitCalls]
    | commit ok =>
      cases ok with
      | true => simp [applyEvent, commitCalls]; omega
      | false =>
        have := (h1 (es ++ Event.commit false :: q) rfl).1
        simp at this

/-- The rows handed to `Exec` are the decodings of the first lines of the file, in file order. -/
theorem execRecords_importLoop (B : Nat) (lib : Stdlib Time Loc F64 F32) (fails : Nat → Bool)
    (timeLocation : Loc) (stationId : String) (lines : List CsvLine) :
    ∀ calls count fpr : Nat, ∃ done rest, lines = done ++ rest ∧
      List.Forall₂ (DecodesTo lib timeLocation stationId) done
        (execRecords (importLoop B lib fails timeLocation stationId lines calls count fpr).2) := by
  induction lines with
  | nil =>
    intro calls count fpr
    refine ⟨[], [], rfl, ?_⟩
    unfold importLoop
    split_ifs <;> simp [execRecords]
  | cons l rest ih =>
    intro calls count fpr
    cases l with
    | bad => exact ⟨[], _, rfl, by simp [importLoop, execRecords]⟩
    | fields rec =>
      rw [importLoop]
      by_cases hf : fpr > 0 ∧ rec.length ≠ fpr
      · exact ⟨[], _, rfl, by simp [hf, execRecords]⟩
      · rw [if_neg hf]
        cases hd : decodeRow lib timeLocation stationId rec with
        | panic => exact ⟨[], _, rfl, by simp [execRecords]⟩
        | err e => exact ⟨[], _, rfl, by simp [execRecords]⟩
        | record r =>
          simp only []
          have hdec : DecodesTo lib timeLocation stationId (CsvLine.fields rec) r :=
            ⟨rec, rfl, hd⟩
          by_cases h0 : fails calls = true
          · exact ⟨[], _, rfl, by simp [h0, execRecords]⟩
          · rw [if_neg h0]
            by_cases hz : (count + 1) % 2 ^ 64 % B = 0
            · rw [if_pos hz]
              by_cases h1 : fails (calls + 1) = true
              · exact ⟨[CsvLine.fields rec], rest, rfl, by simp [h1, execRecords, hdec]⟩
              · rw [if_neg h1]
                by_cases h2 : fails (calls + 2) = true
                · exact ⟨[CsvLine.fields rec], rest, rfl, by simp [h2, execRecords, hdec]⟩
                · rw [if_neg h2]
                  by_cases h3 : fails (calls + 3) = true
                  · exact ⟨[CsvLine.fields rec], rest, rfl, by simp [h3, execRecords, hdec]⟩
                  · rw [if_neg h3]
                    by_cases h4 : fails (calls + 4) = true
                    · exact ⟨[CsvLine.fields rec], rest, rfl, by simp [h4, execRecords, hdec]⟩
                    · rw [if_neg h4, emit_snd]
                      obtain ⟨done, rest', hl, hfa⟩ := ih (calls + 5) ((count + 1) % 2 ^ 64)
                        (if fpr = 0 then rec.length else fpr)
                      exact ⟨CsvLine.fields rec :: done, rest', by simp [hl], by
                        simpa [execRecords] using List.Forall₂.cons hdec hfa⟩
            · rw [if_neg hz, emit_snd]
              obtain ⟨done, rest', hl, hfa⟩ := ih (calls + 1) ((count + 1) % 2 ^ 64)
                (if fpr = 0 then rec.length else fpr)
              exact ⟨CsvLine.fields rec :: done, rest', by simp [hl], by
                simpa [execRecords] using List.Forall₂.cons hdec hfa⟩

end RunFacts

/-! ## C9: size of the open batch -/

section Claims

variable {Time Loc F64 F32 : Type}

/-- C9. At every point of every run (the calls made so far are `p`, those to come are `q`), the
rows added and not yet committed are at most `B`; they are fewer than `B` whenever the next call
is the read of the next row; and every committed batch holds at most `B` rows. -/
theorem pending_rows_bounded (B : Nat) (hB : 1 ≤ B) (lib : Stdlib Time Loc F64 F32)
    (fails : Nat → Bool) (timeLocation : Loc) (stationId : String)
    (file : Option (List CsvLine)) (p q : List (Event Time F32))
    (h : (importData B lib fails timeLocation stationId file).2 = p ++ q) :
    (replay p).pending.length ≤ B ∧
      (∀ q', q = Event.read :: q' → (replay p).pending.length < B) ∧
      (∀ b ∈ (replay p).committed, b.length ≤ B) := by
  have hall := importData_allAlong B hB False lib fails timeLocation stationId file
    (fun w => w.elim)
  rw [h] at hall
  have hp := AllAlong.split p q Store.init hall
  exact ⟨hp.1, fun q' hq => (hp.2.2.1 q' hq).2, hp.2.1⟩

/-- C9 on the two sample rows with the batch size of the program, at the point where the second
row is about to be read. -/
theorem pending_rows_bounded_witness :
    1 ≤ INSERT_STATION_DATA_BATCH_SIZE ∧
      (importData INSERT_STATION_DATA_BATCH_SIZE sampleLib noFail () "10637"
          (some sampleFile)).2 =
        (importData INSERT_STATION_DATA_BATCH_SIZE sampleLib noFail () "10637"
            (some sampleFile)).2.take 4 ++
          (importData INSERT_STATION_DATA_BATCH_SIZE sampleLib noFail () "10637"
            (some sampleFile)).2.drop 4 ∧
      ((replay ((importData INSERT_STATION_DATA_BATCH_SIZE sampleLib noFail () "10637"
          (some sampleFile)).2.take 4)).pending.length ≤ INSERT_STATION_DATA_BATCH_SIZE ∧
        (∀ q', (importData INSERT_STATION_DATA_BATCH_SIZE sampleLib noFail () "10637"
            (some sampleFile)).2.drop 4 = Event.read :: q' →
          (replay ((importData INSERT_STATION_DATA_BATCH_SIZE sampleLib noFail () "10637"
            (some sampleFile)).2.take 4)).pending.length < INSERT_STATION_DATA_BATCH_SIZE) ∧
        (∀ b ∈ (replay ((importData INSERT_STATION_DATA_BATCH_SIZE sampleLib noFail () "10637"
            (some sampleFile)).2.take 4)).committed,
          b.length ≤ INSERT_STATION_DATA_BATCH_SIZE)) :=
  ⟨by decide, (List.take_append_drop 4 _).symm,
    pending_rows_bounded INSERT_STATION_DATA_BATCH_SIZE (by decide) sampleLib noFail ()
      "10637" (some sampleFile) _ _ (List.take_append_drop 4 _).symm⟩

end Claims

/-! ## C8: the transaction and its statement -/

section ClaimsHandles

variable {Time Loc F64 F32 : Type}

set_option maxRecDepth 1000000

/-- C8, as stated, fails: in the run on a file of 250 rows with no failing call, the point right
after the `stmt.Close()` of the threshold flush has the new transaction open while the
statement is closed. -/
theorem handles_unpaired_inside_flush :
    ((importData INSERT_STATION_DATA_BATCH_SIZE sampleLib noFail () "10637"
        (some fullBatchFile)).2.take 505).getLast? = some (Event.close true) ∧
      (replay ((importData INSERT_STATION_DATA_BATCH_SIZE sampleLib noFail () "10637"
        (some fullBatchFile)).2.take 505)).batchOpen = true ∧
      (replay ((importData INSERT_STATION_DATA_BATCH_SIZE sampleLib noFail () "10637"
        (some fullBatchFile)).2.take 505)).stmtOpen = false := by
  decide

/-- C8, amended. At every point of every run (the calls made so far are `p`, those to come are
`q`): the transaction and its statement are both open (the statement prepared on that
transaction) or both closed, unless the call just made is a `Begin` that succeeded, the
`stmt.Close()` after it, or a `Prepare` that failed, where the new transaction is open and has
no open statement. In particular both are open whenever the next call is the read of the next
row, both are closed right after every `Commit`, whether it succeeded or failed, both are
closed at the end of a run that returns nil, and a statement is never open on a transaction
that has ended. -/
theorem handles_paired_outside_begin_prepare (B : Nat) (hB : 1 ≤ B)
    (lib : Stdlib Time Loc F64 F32) (fails : Nat → Bool) (timeLocation : Loc)
    (stationId : String) (file : Option (List CsvLine)) (p q : List (Event Time F32))
    (h : (importData B lib fails timeLocation stationId file).2 = p ++ q) :
    (BothOpen (replay p) ∨ BothClosed (replay p) ∨
        ∃ p' e, p = p' ++ [e] ∧ BetweenBeginAndPrepare e ∧
          (replay p).batchOpen = true ∧ (replay p).stmtOpen = false) ∧
      ((replay p).stmtOpen = true → (replay p).batchOpen = true) ∧
      (∀ q', q = Event.read :: q' → BothOpen (replay p)) ∧
      (∀ ok q', q = Event.commit ok :: q' → BothClosed (replay (p ++ [Event.commit ok]))) ∧
      (q = [] → (importData B lib fails timeLocation stationId file).1 = Outcome.ok →
        BothClosed (replay p)) := by
  have hall := importData_allAlong B hB False lib fails timeLocation stationId file
    (fun w => w.elim)
  have hpoint : BothOpen (replay p) ∨ BothClosed (replay p) ∨
      ∃ p' e, p = p' ++ [e] ∧ BetweenBeginAndPrepare e ∧
        (replay p).batchOpen = true ∧ (replay p).stmtOpen = false := by
    rcases List.eq_nil_or_concat p with rfl | ⟨p', e, hpe⟩
    · right; left
      simp [replay, replayFrom_nil, BothClosed, Store.init]
    · rw [List.concat_eq_append] at hpe
      subst hpe
      have hall' := hall
      rw [h, List.append_assoc] at hall'
      have hp' := AllAlong.split p' ([e] ++ q) Store.init hall'
      have hstep : replay (p' ++ [e]) = applyEvent (replayFrom Store.init p') e := by
        simp [replay, replayFrom_append, replayFrom_cons, replayFrom_nil]
      rw [hstep]
      rcases hp'.2.2.2.2.2.2 e q rfl with ho | hc | ⟨hw, hb, hs⟩
      · exact Or.inl ho
      · exact Or.inr (Or.inl hc)
      · exact Or.inr (Or.inr ⟨p', e, rfl, hw, hb, hs⟩)
  rw [h] at hall
  have hp := AllAlong.split p q Store.init hall
  refine ⟨hpoint, ?_, fun q' hq => (hp.2.2.1 q' hq).1, ?_, hp.2.2.2.2.2.1⟩
  · intro hs
    rcases hpoint with ho | hc | ⟨_, _, _, _, _, hs'⟩
    · exact ho.1
    · rw [hc.2] at hs; cases hs
    · rw [hs'] at hs; cases hs
  · intro ok q' hq
    have hstep : replay (p ++ [Event.commit ok]) =
        applyEvent (replayFrom Store.init p) (Event.commit ok) := by
      simp [replay, replayFrom_append, replayFrom_cons, replayFrom_nil]
    rw [hstep]
    rcases hp.2.2.2.2.2.2 (Event.commit ok) q' hq with ho | hc | ⟨hw, -, -⟩
    · cases ok <;> simp [BothOpen, applyEvent] at ho
    · exact hc
    · rcases hw with hw | hw | hw | hw <;> cases hw

/-- C8, amended, on the two sample rows, at the point where the second row is about to be
read. -/
theorem handles_paired_outside_begin_prepare_witness :
    1 ≤ INSERT_STATION_DATA_BATCH_SIZE ∧
      (importData INSERT_STATION_DATA_BATCH_SIZE sampleLib noFail () "10637"
          (some sampleFile)).2 =
        (importData INSERT_STATION_DATA_BATCH_SIZE sampleLib noFail () "10637"
            (some sampleFile)).2.take 4 ++
          (importData INSERT_STATION_DATA_BATCH_SIZE sampleLib noFail () "10637"
            (some sampleFile)).2.drop 4 ∧
      BothOpen (replay ((importData INSERT_STATION_DATA_BATCH_SIZE sampleLib noFail () "10637"
        (some sampleFile)).2.take 4)) :=
  ⟨by decide, (List.take_append_drop 4 _).symm,
    (handles_paired_outside_begin_prepare INSERT_STATION_DATA_BATCH_SIZE (by decide) sampleLib
      noFail () "10637" (some sampleFile) _ _ (List.take_append_drop 4 _).symm).2.2.1 _ rfl⟩

end ClaimsHandles

/-! ## C3: a commit that fails -/

section ClaimsCommit

variable {Time Loc F64 F32 : Type}

/-- The rows handed to `Exec` in a run are the decodings of the first lines of the file. -/
theorem execRecords_importData (B : Nat) (lib : Stdlib Time Loc F64 F32) (fails : Nat → Bool)
    (timeLocation : Loc) (stationId : String) (lines : List CsvLine) :
    ∃ done rest, lines = done ++ rest ∧
      List.Forall₂ (DecodesTo lib timeLocation stationId) done
        (execRecords (importData B lib fails timeLocation stationId (some lines)).2) := by
  unfold importData
  by_cases h0 : fails 0 = true
  · exact ⟨[], lines, rfl, by simp [h0, execRecords]⟩
  · rw [if_neg h0]
    by_cases h1 : fails 1 = true
    · exact ⟨[], lines, rfl, by simp [h1, execRecords]⟩
    · rw [if_neg h1]
      obtain ⟨done, rest, hl, hfa⟩ :=
        execRecords_importLoop B lib fails timeLocation stationId lines 2 0 0
      exact ⟨done, rest, hl, by simpa [emit_snd, execRecords] using hfa⟩

/-- C3. When the `k`-th `Commit` of a run fails (the calls before it are `p`), the run makes no
further call and returns the error; the committed batches are those committed before, `k - 1` in
number, each of `B` rows (for a file of fewer than `2^64` lines, so that the row counter does
not wrap); together with the rows of the batch whose commit failed they are the rows handed to
`Exec`, which are the decodings of the first lines of the file in file order. So the committed
rows are exactly the rows of batches `1..k-1`, and no row of batch `k` or of a later batch is
committed. -/
theorem failed_commit_keeps_earlier_batches (B : Nat) (hB : 1 ≤ B)
    (lib : Stdlib Time Loc F64 F32) (fails : Nat → Bool) (timeLocation : Loc)
    (stationId : String) (lines : List CsvLine)
    (p q : List (Event Time F32)) (k : Nat)
    (h : (importData B lib fails timeLocation stationId (some lines)).2 =
      p ++ Event.commit false :: q)
    (hk : k = commitCalls p + 1) :
    q = [] ∧
      (importData B lib fails timeLocation stationId (some lines)).1 =
        Outcome.err Err.store ∧
      (replay (importData B lib fails timeLocation stationId (some lines)).2).committed =
        (replay p).committed ∧
      (replay p).committed.length = k - 1 ∧
      (lines.length < 2 ^ 64 → ∀ b ∈ (replay p).committed, b.length = B) ∧
      (replay p).committed.flatten ++ (replay p).pending =
        execRecords (importData B lib fails timeLocation stationId (some lines)).2 ∧
      ∃ done rest, lines = done ++ rest ∧
        List.Forall₂ (DecodesTo lib timeLocation stationId) done
          (execRecords (importData B lib fails timeLocation stationId (some lines)).2) := by
  have hall := importData_allAlong B hB (lines.length < 2 ^ 64) lib fails timeLocation
    stationId (some lines) (fun w l hl => by cases hl; exact w)
  have hdec := execRecords_importData B lib fails timeLocation stationId lines
  rw [h] at hall hdec ⊢
  have hp := AllAlong.split p (Event.commit false :: q) Store.init hall
  obtain ⟨hq, hout, -, hfull⟩ := hp.2.2.2.1 q rfl
  subst hq
  have hlen := committed_length_of_allAlong B _ _ p [] Store.init hall
  have hjoin := replayFrom_join (p ++ [Event.commit false]) (Store.init : Store Time F32)
  have hsame : (replayFrom (Store.init : Store Time F32) (p ++ [Event.commit false])).committed =
      (replayFrom Store.init p).committed := by
    simp [replayFrom_append, replayFrom_cons, replayFrom_nil, applyEvent]
  have hpend : (replayFrom (Store.init : Store Time F32) (p ++ [Event.commit false])).pending =
      (replayFrom Store.init p).pending := by
    simp [replayFrom_append, replayFrom_cons, replayFrom_nil, applyEvent]
  refine ⟨rfl, hout, ?_, ?_, hfull, ?_, hdec⟩
  · simp only [replay, hsame]
  · simp only [replay, hlen, hk]
    simp [Store.init]
  · rw [hsame, hpend] at hjoin
    simpa [replay, Store.init] using hjoin

/-- Sample for C3: batch size 1, the two sample rows, and the second commit fails (call number
8: begin, prepare, exec, commit, begin, close, prepare, exec, commit). The first row stays
committed, the second is not committed. -/
theorem failed_commit_keeps_earlier_batches_witness :
    1 ≤ 1 ∧
      (importData 1 sampleLib (failsAt 8) () "10637" (some sampleFile)).2 =
        (importData 1 sampleLib (failsAt 8) () "10637" (some sampleFile)).2.take 10 ++
          Event.commit false :: [] ∧
      2 = commitCalls
        ((importData 1 sampleLib (failsAt 8) () "10637" (some sampleFile)).2.take 10) + 1 ∧
      (replay (importData 1 sampleLib (failsAt 8) () "10637" (some sampleFile)).2).committed =
        (replay ((importData 1 sampleLib (failsAt 8) () "10637"
          (some sampleFile)).2.take 10)).committed ∧
      (replay ((importData 1 sampleLib (failsAt 8) () "10637"
          (some sampleFile)).2.take 10)).committed.length = 2 - 1 :=
  ⟨by decide, by decide, by decide,
    (failed_commit_keeps_earlier_batches 1 (by decide) sampleLib (failsAt 8) () "10637"
      sampleFile _ [] 2 (by decide) (by decide)).2.2.1,
    (failed_commit_keeps_earlier_batches 1 (by decide) sampleLib (failsAt 8) () "10637"
      sampleFile _ [] 2 (by decide) (by decide)).2.2.2.1⟩

end ClaimsCommit

/-! ## Runs without a failing call on a file that decodes -/

section NoFailure

variable {Time Loc F64 F32 : Type}

theorem commitCalls_append (p q : List (Event Time F32)) :
    commitCalls (p ++ q) = commitCalls p + commitCalls q := by
  induction p with
  | nil => simp [commitCalls]
  | cons e es ih =>
    cases e <;> simp [commitCalls, ih]
    omega

/-- One pass of the loop when the line decodes and no call fails. -/
theorem importLoop_step (B : Nat) (lib : Stdlib Time Loc F64 F32) (fails : Nat → Bool)
    (hnf : ∀ i, fails i = false) (timeLocation : Loc) (stationId : String)
    (rec : List String) (r : Record Time F32) (rest : List CsvLine)
    (hlen : rec.length = 13)
    (hd : decodeRow lib timeLocation stationId rec = RowResult.record r)
    (calls count fpr : Nat) (hfpr : fpr = 0 ∨ fpr = 13) :
    importLoop B lib fails timeLocation stationId (CsvLine.fields rec :: rest) calls count fpr =
      if (count + 1) % 2 ^ 64 % B = 0 then
        emit [Event.read, Event.exec r true, Event.commit true, Event.begin true,
            Event.close true, Event.prepare true]
          (importLoop B lib fails timeLocation stationId rest (calls + 5)
            ((count + 1) % 2 ^ 64) 13)
      else
        emit [Event.read, Event.exec r true]
          (importLoop B lib fails timeLocation stationId rest (calls + 1)
            ((count + 1) % 2 ^ 64) 13) := by
  have hf : ¬ (fpr > 0 ∧ rec.length ≠ fpr) := by
    rcases hfpr with h | h <;> omega
  have hfpr' : (if fpr = 0 then rec.length else fpr) = 13 := by
    rcases hfpr with h | h <;> simp [h, hlen]
  rw [importLoop, if_neg hf, hd]
  simp only [hnf, hfpr']
  simp

/-- A run of the loop on a file that decodes, with no failing call: it returns nil, the rows
handed to `Exec` are the rows of the file, nothing is left uncommitted, and every commit call
adds one committed batch. -/
theorem importLoop_noFail (B : Nat) (lib : Stdlib Time Loc F64 F32) (fails : Nat → Bool)
    (hnf : ∀ i, fails i = false) (timeLocation : Loc) (stationId : String)
    (lines : List CsvLine) (records : List (Record Time F32))
    (hdec : Decoded lib timeLocation stationId lines records) :
    ∀ (calls count fpr : Nat) (s : Store Time F32), fpr = 0 ∨ fpr = 13 →
      (importLoop B lib fails timeLocation stationId lines calls count fpr).1 = Outcome.ok ∧
      execRecords (importLoop B lib fails timeLocation stationId lines calls count fpr).2 =
        records ∧
      (replayFrom s
        (importLoop B lib fails timeLocation stationId lines calls count fpr).2).pending = [] ∧
      (replayFrom s
        (importLoop B lib fails timeLocation stationId lines calls count fpr).2).committed.length =
        s.committed.length +
          commitCalls (importLoop B lib fails timeLocation stationId lines calls count fpr).2 := by
  induction hdec with
  | nil =>
    intro calls count fpr s _
    simp [importLoop, hnf, execRecords, replayFrom, applyEvent, commitCalls]
  | @cons l r ls rs hl _ ih =>
    intro calls count fpr s hfpr
    obtain ⟨rec, rfl, hlen, hd⟩ := hl
    rw [importLoop_step B lib fails hnf timeLocation stationId rec r ls hlen hd calls count fpr
      hfpr]
    by_cases hz : (count + 1) % 2 ^ 64 % B = 0
    · rw [if_pos hz, emit_fst, emit_snd]
      obtain ⟨h1, h2, h3, h4⟩ := ih (calls + 5) ((count + 1) % 2 ^ 64) 13
        (replayFrom s [Event.read, Event.exec r true, Event.commit true, Event.begin true,
            Event.close true, Event.prepare true]) (Or.inr rfl)
      refine ⟨h1, ?_, ?_, ?_⟩
      · simpa [execRecords] using h2
      · rw [replayFrom_append]; exact h3
      · rw [replayFrom_append, h4, commitCalls_append]
        simp [replayFrom, applyEvent, commitCalls]
        omega
    · rw [if_neg hz, emit_fst, emit_snd]
      obtain ⟨h1, h2, h3, h4⟩ := ih (calls + 1) ((count + 1) % 2 ^ 64) 13
        (replayFrom s [Event.read, Event.exec r true]) (Or.inr rfl)
      refine ⟨h1, ?_, ?_, ?_⟩
      · simpa [execRecords] using h2
      · rw [replayFrom_append]; exact h3
      · rw [replayFrom_append, h4, commitCalls_append]
        simp [replayFrom, applyEvent, commitCalls]

/-- The same run, counted: with `m` rows not yet committed on entry and `n` lines in the file,
the loop calls `Commit` `(m + n) / B + 1` times, and the last committed batch holds
`(m + n) % B` rows. -/
theorem importLoop_commits (B : Nat) (hB : 1 ≤ B) (lib : Stdlib Time Loc F64 F32)
    (fails : Nat → Bool) (hnf : ∀ i, fails i = false) (timeLocation : Loc)
    (stationId : String) (lines : List CsvLine) (records : List (Record Time F32))
    (hdec : Decoded lib timeLocation stationId lines records) :
    ∀ (calls count fpr : Nat) (s : Store Time F32), fpr = 0 ∨ fpr = 13 →
      count + lines.length < 2 ^ 64 → s.pending.length = count % B →
      commitCalls (importLoop B lib fails timeLocation stationId lines calls count fpr).2 =
        (s.pending.length + lines.length) / B + 1 ∧
      ∃ front last,
        (replayFrom s
          (importLoop B lib fails timeLocation stationId lines calls count fpr).2).committed =
            front ++ [last] ∧
        last.length = (s.pending.length + lines.length) % B := by
  induction hdec with
  | nil =>
    intro calls count fpr s _ _ hm
    have hlt : s.pending.length < B := by rw [hm]; exact Nat.mod_lt _ (by omega)
    refine ⟨?_, s.committed, s.pending, ?_, ?_⟩
    · simp [importLoop, hnf, commitCalls, Nat.div_eq_of_lt hlt]
    · simp [importLoop, hnf, replayFrom, applyEvent]
    · simp [Nat.mod_eq_of_lt hlt]
  | @cons l r ls rs hl _ ih =>
    intro calls count fpr s hfpr hN hm
    obtain ⟨rec, rfl, hlen, hd⟩ := hl
    simp only [List.length_cons] at hN ⊢
    obtain ⟨e1, e2, e3, e4⟩ := step_exact B count ls.length hN hB
    rw [importLoop_step B lib fails hnf timeLocation stationId rec r ls hlen hd calls count fpr
      hfpr, e1]
    by_cases hz : (count + 1) % B = 0
    · rw [if_pos hz, emit_snd]
      have hfull : s.pending.length + 1 = B := by rw [hm]; exact e3 hz
      obtain ⟨h1, front, last, h2, h3⟩ := ih (calls + 5) (count + 1) 13
        (replayFrom s [Event.read, Event.exec r true, Event.commit true, Event.begin true,
            Event.close true, Event.prepare true]) (Or.inr rfl) (by omega)
        (by simp [replayFrom, applyEvent, hz])
      have hp0 : (replayFrom s [Event.read, Event.exec r true, Event.commit true,
          Event.begin true, Event.close true, Event.prepare true]).pending.length = 0 := by
        simp [replayFrom, applyEvent]
      rw [hp0] at h1 h3
      have hsum : s.pending.length + (ls.length + 1) = B + ls.length := by omega
      refine ⟨?_, front, last, ?_, ?_⟩
      · rw [commitCalls_append, h1, hsum, Nat.add_div_left _ (by omega)]
        simp [commitCalls]
        omega
      · rw [replayFrom_append]; exact h2
      · rw [h3, hsum, Nat.add_mod_left, Nat.zero_add]
    · rw [if_neg hz, emit_snd]
      obtain ⟨h1, front, last, h2, h3⟩ := ih (calls + 1) (count + 1) 13
        (replayFrom s [Event.read, Event.exec r true]) (Or.inr rfl) (by omega)
        (by simp [replayFrom, applyEvent, hm, e4 hz])
      have hp1 : (replayFrom s [Event.read, Event.exec r true]).pending.length =
          s.pending.length + 1 := by
        simp [replayFrom, applyEvent]
      rw [hp1] at h1 h3
      have hsum : s.pending.length + (ls.length + 1) = s.pending.length + 1 + ls.length := by
        omega
      refine ⟨?_, front, last, ?_, ?_⟩
      · rw [commitCalls_append, h1, hsum]
        simp [commitCalls]
      · rw [replayFrom_append]; exact h2
      · rw [h3, hsum]

end NoFailure

/-! ## C5 and C1: what a run without failure commits -/

section ClaimsBatches

variable {Time Loc F64 F32 : Type}

set_option maxRecDepth 1000000

theorem decoded_replicate (lib : Stdlib Time Loc F64 F32) (timeLocation : Loc)
    (stationId : String) (rec : List String) (r : Record Time F32) (hlen : rec.length = 13)
    (hd : decodeRow lib timeLocation stationId rec = RowResult.record r) (n : Nat) :
    Decoded lib timeLocation stationId (List.replicate n (CsvLine.fields rec))
      (List.replicate n r) := by
  induction n with
  | zero => exact List.Forall₂.nil
  | succ n ih => exact List.Forall₂.cons ⟨rec, rfl, hlen, hd⟩ ih

theorem decoded_sampleFile :
    Decoded sampleLib () "10637" sampleFile [sampleRecord1, sampleRecord2] :=
  List.Forall₂.cons ⟨sampleRow1, rfl, rfl, by decide⟩
    (List.Forall₂.cons ⟨sampleRow2, rfl, rfl, by decide⟩ List.Forall₂.nil)

theorem importData_noFail (B : Nat) (lib : Stdlib Time Loc F64 F32) (fails : Nat → Bool)
    (hnf : ∀ i, fails i = false) (timeLocation : Loc) (stationId : String)
    (lines : List CsvLine) :
    importData B lib fails timeLocation stationId (some lines) =
      emit [Event.begin true, Event.prepare true]
        (importLoop B lib fails timeLocation stationId lines 2 0 0) := by
  simp [importData, hnf]

/-- C5. On a file of `N` lines that all decode and with no failing call, the run returns nil,
the committed batches put one after the other are the rows of the file in file order (each row
once), no row is left uncommitted, and the sizes of the committed batches add up to `N`. -/
theorem committed_rows_are_file_rows (B : Nat) (lib : Stdlib Time Loc F64 F32)
    (fails : Nat → Bool) (hnf : ∀ i, fails i = false) (timeLocation : Loc)
    (stationId : String) (lines : List CsvLine) (records : List (Record Time F32))
    (hdec : Decoded lib timeLocation stationId lines records) :
    (importData B lib fails timeLocation stationId (some lines)).1 = Outcome.ok ∧
      (replay (importData B lib fails timeLocation stationId (some lines)).2).committed.flatten =
        records ∧
      (replay (importData B lib fails timeLocation stationId (some lines)).2).pending = [] ∧
      ((replay (importData B lib fails timeLocation stationId (some lines)).2).committed.map
        List.length).sum = lines.length := by
  rw [importData_noFail B lib fails hnf]
  obtain ⟨h1, h2, h3, -⟩ := importLoop_noFail B lib fails hnf timeLocation stationId lines
    records hdec 2 0 0 (replayFrom Store.init [Event.begin true, Event.prepare true])
    (Or.inl rfl)
  have hj := replayFrom_join (importLoop B lib fails timeLocation stationId lines 2 0 0).2
    (replayFrom (Store.init : Store Time F32) [Event.begin true, Event.prepare true])
  rw [h2, h3] at hj
  have hflat : (replay (emit [Event.begin true, Event.prepare true]
      (importLoop B lib fails timeLocation stationId lines 2 0 0)).2).committed.flatten =
      records := by
    rw [emit_snd, replay, replayFrom_append]
    simpa [replayFrom, applyEvent, Store.init] using hj
  refine ⟨by rw [emit_fst]; exact h1, hflat, ?_, ?_⟩
  · rw [emit_snd, replay, replayFrom_append]; exact h3
  · rw [← List.length_flatten, hflat]
    exact (List.Forall₂.length_eq hdec).symm

/-- C5 on the two sample rows. -/
theorem committed_rows_are_file_rows_witness :
    (∀ i, noFail i = false) ∧
      Decoded sampleLib () "10637" sampleFile [sampleRecord1, sampleRecord2] ∧
      (replay (importData INSERT_STATION_DATA_BATCH_SIZE sampleLib noFail () "10637"
        (some sampleFile)).2).committed.flatten = [sampleRecord1, sampleRecord2] :=
  ⟨fun _ => rfl, decoded_sampleFile,
    (committed_rows_are_file_rows INSERT_STATION_DATA_BATCH_SIZE sampleLib noFail
      (fun _ => rfl) () "10637" sampleFile [sampleRecord1, sampleRecord2]
      decoded_sampleFile).2.1⟩

/-- C1, as stated, fails: on a file of exactly 250 rows (all decode, no call fails) the run
calls `Commit` twice, not `ceil(250/250) = 1` times, and the last commit covers no row, not 250
rows. -/
theorem commits_on_full_batch_file :
    Decoded sampleLib () "10637" fullBatchFile
        (List.replicate INSERT_STATION_DATA_BATCH_SIZE sampleRecord2) ∧
      fullBatchFile.length = 250 ∧ (250 + 250 - 1) / 250 = 1 ∧
      commitCalls (importData INSERT_STATION_DATA_BATCH_SIZE sampleLib noFail () "10637"
        (some fullBatchFile)).2 = 2 ∧
      (replay (importData INSERT_STATION_DATA_BATCH_SIZE sampleLib noFail () "10637"
        (some fullBatchFile)).2).committed.map List.length = [250, 0] :=
  ⟨decoded_replicate sampleLib () "10637" sampleRow2 sampleRecord2 rfl (by decide) _,
    by decide, by decide, by decide, by decide⟩

/-- C1, amended. On a file of `N` lines that all decode (`N < 2^64`) and with no failing call,
for a batch size `B ≥ 1`, the run calls `Commit` exactly `N / B + 1` times (rounded down), each
call commits one batch, and the last one covers `N mod B` rows (no row when `N` is a multiple
of `B`). When `N` is not a multiple of `B` this number of commits is `ceil(N / B)`. -/
theorem commits_issued (B : Nat) (hB : 1 ≤ B) (lib : Stdlib Time Loc F64 F32)
    (fails : Nat → Bool) (hnf : ∀ i, fails i = false) (timeLocation : Loc)
    (stationId : String) (lines : List CsvLine) (records : List (Record Time F32))
    (hdec : Decoded lib timeLocation stationId lines records) (hN : lines.length < 2 ^ 64) :
    commitCalls (importData B lib fails timeLocation stationId (some lines)).2 =
        lines.length / B + 1 ∧
      (replay (importData B lib fails timeLocation stationId (some lines)).2).committed.length =
        lines.length / B + 1 ∧
      (lines.length % B ≠ 0 →
        commitCalls (importData B lib fails timeLocation stationId (some lines)).2 =
          (lines.length + B - 1) / B) ∧
      ∃ front last,
        (replay (importData B lib fails timeLocation stationId (some lines)).2).committed =
          front ++ [last] ∧
        last.length = lines.length % B := by
  rw [importData_noFail B lib fails hnf, emit_snd]
  obtain ⟨-, -, -, h4⟩ := importLoop_noFail B lib fails hnf timeLocation stationId lines
    records hdec 2 0 0 (replayFrom Store.init [Event.begin true, Event.prepare true])
    (Or.inl rfl)
  obtain ⟨h5, front, last, h6, h7⟩ := importLoop_commits B hB lib fails hnf timeLocation
    stationId lines records hdec 2 0 0
    (replayFrom Store.init [Event.begin true, Event.prepare true]) (Or.inl rfl)
    (by simpa using hN) (by simp [replayFrom, applyEvent, Store.init])
  have hp0 : (replayFrom (Store.init : Store Time F32)
      [Event.begin true, Event.prepare true]).pending.length = 0 := by
    simp [replayFrom, applyEvent, Store.init]
  have hc0 : (replayFrom (Store.init : Store Time F32)
      [Event.begin true, Event.prepare true]).committed.length = 0 := by
    simp [replayFrom, applyEvent, Store.init]
  rw [hp0, Nat.zero_add] at h5 h7
  rw [hc0, Nat.zero_add, h5] at h4
  have hcalls : commitCalls ([Event.begin true, Event.prepare true] ++
      (importLoop B lib fails timeLocation stationId lines 2 0 0).2) = lines.length / B + 1 := by
    rw [commitCalls_append, h5]
    simp [commitCalls]
  refine ⟨hcalls, ?_, ?_, front, last, ?_, h7⟩
  · rw [replay, replayFrom_append]; exact h4
  · intro hr
    rw [hcalls]
    exact (ceil_div_of_not_dvd lines.length B hB hr).symm
  · rw [replay, replayFrom_append]; exact h6

/-- C1, amended, on the two sample rows with the batch size of the program: one commit, of two
rows. -/
theorem commits_issued_witness :
    1 ≤ INSERT_STATION_DATA_BATCH_SIZE ∧ (∀ i, noFail i = false) ∧
      Decoded sampleLib () "10637" sampleFile [sampleRecord1, sampleRecord2] ∧
      sampleFile.length < 2 ^ 64 ∧
      commitCalls (importData INSERT_STATION_DATA_BATCH_SIZE sampleLib noFail () "10637"
        (some sampleFile)).2 = sampleFile.length / INSERT_STATION_DATA_BATCH_SIZE + 1 :=
  ⟨by decide, fun _ => rfl, decoded_sampleFile, by decide,
    (commits_issued INSERT_STATION_DATA_BATCH_SIZE (by decide) sampleLib noFail (fun _ => rfl)
      () "10637" sampleFile [sampleRecord1, sampleRecord2] decoded_sampleFile
      (by decide)).1⟩

end ClaimsBatches

/-! ## C6: the columns of a record -/

section ClaimsColumns

variable {Time Loc F64 F32 : Type}

/-- The rows handed to `Exec` in a run without failure on a file that decodes are the rows of
the file. -/
theorem execRecords_noFail (B : Nat) (lib : Stdlib Time Loc F64 F32) (fails : Nat → Bool)
    (hnf : ∀ i, fails i = false) (timeLocation : Loc) (stationId : String)
    (lines : List CsvLine) (records : List (Record Time F32))
    (hdec : Decoded lib timeLocation stationId lines records) :
    execRecords (importData B lib fails timeLocation stationId (some lines)).2 = records := by
  rw [importData_noFail B lib fails hnf, emit_snd]
  have h := (importLoop_noFail B lib fails hnf timeLocation stationId lines records hdec 2 0 0
    Store.init (Or.inl rfl)).2.1
  simpa [execRecords] using h

/-- The columns of a record of 13 fields whose date and hour give the time `dt`. -/
theorem decodeRow_thirteen (lib : Stdlib Time Loc F64 F32) (timeLocation : Loc)
    (stationId : String) (c0 c1 c2 c3 c4 c5 c6 c7 c8 c9 c10 c11 c12 : String) (dt : Time)
    (ht : lib.ParseInLocation "2006-01-02 15:00:00" (c0 ++ " " ++ c1 ++ ":00:00")
      timeLocation = some dt) :
    decodeRow lib timeLocation stationId [c0, c1, c2, c3, c4, c5, c6, c7, c8, c9, c10, c11, c12] =
      RowResult.record
        { station := stationId
          measuredAt := dt
          temp := parseFloat32OrNil lib c2
          dwpt := parseFloat32OrNil lib c3
          rhum := parseInt16OrNil c4
          prcp := parseFloat32OrNil lib c5
          snow := parseInt16OrNil c6
          wdir := parseInt16OrNil c7
          wspd := parseFloat32OrNil lib c8
          wpgt := parseFloat32OrNil lib c9
          pres := parseFloat32OrNil lib c10
          tsun := parseInt16OrNil c11
          coco := parseInt16OrNil c12 } := by
  simp [decodeRow, ht]

/-- C6. A record of 13 fields whose date and hour the time parser accepts gives the row whose
measurement columns are the fields 2..12 in the order temp, dwpt, rhum, prcp, snow, wdir, wspd,
wpgt, pres, tsun, coco, the float columns parsed by `parseFloat32OrNil` and the integer columns
by `parseInt16OrNil`; as the first line of a file it is the row handed to the first `Exec`. A
blank cell is nil in an integer column, and in a float column as `strconv.ParseFloat` rejects
the empty token. The rows `2023-01-01,5,10.5,,,,,,,,,,` and `2023-01-01,6,,,,,,,,,,,` of station
10637 give a first row with `temp = 10.5` and nil elsewhere and a second row with nil in all
measurement columns. -/
theorem record_takes_columns_in_order (lib : Stdlib Time Loc F64 F32) (timeLocation : Loc)
    (stationId : String) (c0 c1 c2 c3 c4 c5 c6 c7 c8 c9 c10 c11 c12 : String) (dt : Time)
    (ht : lib.ParseInLocation "2006-01-02 15:00:00" (c0 ++ " " ++ c1 ++ ":00:00")
      timeLocation = some dt) :
    decodeRow lib timeLocation stationId
        [c0, c1, c2, c3, c4, c5, c6, c7, c8, c9, c10, c11, c12] =
      RowResult.record
        { station := stationId
          measuredAt := dt
          temp := parseFloat32OrNil lib c2
          dwpt := parseFloat32OrNil lib c3
          rhum := parseInt16OrNil c4
          prcp := parseFloat32OrNil lib c5
          snow := parseInt16OrNil c6
          wdir := parseInt16OrNil c7
          wspd := parseFloat32OrNil lib c8
          wpgt := parseFloat32OrNil lib c9
          pres := parseFloat32OrNil lib c10
          tsun := parseInt16OrNil c11
          coco := parseInt16OrNil c12 } ∧
    (∀ (B : Nat) (fails : Nat → Bool) (rest : List CsvLine),
      fails 0 = false → fails 1 = false →
        (importData B lib fails timeLocation stationId
          (some (CsvLine.fields [c0, c1, c2, c3, c4, c5, c6, c7, c8, c9, c10, c11, c12] ::
            rest))).2.take 4 =
          [Event.begin true, Event.prepare true, Event.read,
            Event.exec
              { station := stationId
                measuredAt := dt
                temp := parseFloat32OrNil lib c2
                dwpt := parseFloat32OrNil lib c3
                rhum := parseInt16OrNil c4
                prcp := parseFloat32OrNil lib c5
                snow := parseInt16OrNil c6
                wdir := parseInt16OrNil c7
                wspd := parseFloat32OrNil lib c8
                wpgt := parseFloat32OrNil lib c9
                pres := parseFloat32OrNil lib c10
                tsun := parseInt16OrNil c11
                coco := parseInt16OrNil c12 }
              (!fails 2)]) ∧
      parseInt16OrNil "" = none ∧
      (∀ e, lib.atofNumber "" 32 = Except.error e → parseFloat32OrNil lib "" = none) ∧
      (∀ (B : Nat) (x : F64) (e : NumErr) (t1 t2 : Time),
        lib.atofNumber "10.5" 32 = Except.ok x → lib.atofNumber "" 32 = Except.error e →
        lib.ParseInLocation "2006-01-02 15:00:00" "2023-01-01 5:00:00" timeLocation = some t1 →
        lib.ParseInLocation "2006-01-02 15:00:00" "2023-01-01 6:00:00" timeLocation = some t2 →
        execRecords (importData B lib noFail timeLocation "10637" (some sampleFile)).2 =
          [{ station := "10637", measuredAt := t1, temp := some (lib.float32 x), dwpt := none,
             rhum := none, prcp := none, snow := none, wdir := none, wspd := none,
             wpgt := none, pres := none, tsun := none, coco := none },
           { station := "10637", measuredAt := t2, temp := none, dwpt := none,
             rhum := none, prcp := none, snow := none, wdir := none, wspd := none,
             wpgt := none, pres := none, tsun := none, coco := none }]) := by
  have hrow := decodeRow_thirteen lib timeLocation stationId c0 c1 c2 c3 c4 c5 c6 c7 c8 c9 c10
    c11 c12 dt ht
  have hblank : ∀ e, lib.atofNumber "" 32 = Except.error e → parseFloat32OrNil lib "" = none := by
    intro e he
    simp [parseFloat32OrNil, ParseFloat, special, he]
  refine ⟨hrow, ?_, by decide, hblank, ?_⟩
  · intro B fails rest h0 h1
    rw [importData, if_neg (by simp [h0]), if_neg (by simp [h1]), emit_snd, importLoop,
      if_neg (by simp), hrow]
    by_cases h2 : fails 2 = true
    · simp [h2]
    · simp only [h2]
      have h2' : fails 2 = false := by simpa using h2
      by_cases hz : (0 + 1) % 2 ^ 64 % B = 0
      · rw [if_pos hz]
        by_cases h3 : fails (2 + 1) = true
        · simp [h3, h2']
        · rw [if_neg h3]
          by_cases h4 : fails (2 + 2) = true
          · simp [h4, h2']
          · rw [if_neg h4]
            by_cases h5 : fails (2 + 3) = true
            · simp [h5, h2']
            · rw [if_neg h5]
              by_cases h6 : fails (2 + 4) = true
              · simp [h6, h2']
              · rw [if_neg h6]
                simp [emit]
      · rw [if_neg hz]
        simp [emit]
  · intro B x e t1 t2 hx he ht1 ht2
    have hf : parseFloat32OrNil lib "10.5" = some (lib.float32 x) := by
      have hsp : special lib "10.5".data = none := rfl
      simp [parseFloat32OrNil, ParseFloat, hsp, hx]
    have hb := hblank e he
    have hi : parseInt16OrNil "" = none := by decide
    have hs1 : ("2023-01-01" ++ " " ++ "5" ++ ":00:00" : String) = "2023-01-01 5:00:00" := by
      decide
    have hs2 : ("2023-01-01" ++ " " ++ "6" ++ ":00:00" : String) = "2023-01-01 6:00:00" := by
      decide
    have hr1 := decodeRow_thirteen lib timeLocation "10637" "2023-01-01" "5" "10.5" "" "" "" ""
      "" "" "" "" "" "" t1 (by rw [hs1]; exact ht1)
    have hr2 := decodeRow_thirteen lib timeLocation "10637" "2023-01-01" "6" "" "" "" "" ""
      "" "" "" "" "" "" t2 (by rw [hs2]; exact ht2)
    rw [hf, hb, hi] at hr1
    rw [hb, hi] at hr2
    exact execRecords_noFail B lib noFail (fun _ => rfl) timeLocation "10637" sampleFile _
      (List.Forall₂.cons ⟨sampleRow1, rfl, rfl, hr1⟩
        (List.Forall₂.cons ⟨sampleRow2, rfl, rfl, hr2⟩ List.Forall₂.nil))

/-- C6 with the stand-in library: the two sample rows of station 10637 give the two sample
records. -/
theorem record_takes_columns_in_order_witness :
    sampleLib.ParseInLocation "2006-01-02 15:00:00" ("2023-01-01" ++ " " ++ "5" ++ ":00:00")
        () = some "2023-01-01 5:00:00" ∧
      execRecords (importData INSERT_STATION_DATA_BATCH_SIZE sampleLib noFail () "10637"
        (some sampleFile)).2 = [sampleRecord1, sampleRecord2] :=
  ⟨by decide,
    (record_takes_columns_in_order sampleLib () "10637" "2023-01-01" "5" "10.5" "" "" "" "" ""
      "" "" "" "" "" "2023-01-01 5:00:00" (by decide)).2.2.2.2
      INSERT_STATION_DATA_BATCH_SIZE "10.5" NumErr.ErrSyntax "2023-01-01 5:00:00"
      "2023-01-01 6:00:00" rfl rfl rfl rfl⟩

end ClaimsColumns
/-! ## C4: a row with a wrong number of columns -/

section ClaimsFieldCount

variable {Time Loc F64 F32 : Type}

/-- A record whose field count differs from that of the first record of the file is refused by
`cr.Read()`: the loop returns the error at once, with no further call. -/
theorem importLoop_field_count (B : Nat) (lib : Stdlib Time Loc F64 F32) (fails : Nat → Bool)
    (timeLocation : Loc) (stationId : String) (rec : List String) (rest : List CsvLine)
    (calls count fpr : Nat) (hfpr : 0 < fpr) (hlen : rec.length ≠ fpr) :
    importLoop B lib fails timeLocation stationId (CsvLine.fields rec :: rest) calls count fpr =
      (Outcome.err Err.csv, [Event.read]) := by
  rw [importLoop, if_pos ⟨hfpr, hlen⟩]

/-- C4, the failing input. When the first row of the file has five columns, with a date and an
hour the time parser accepts, the action ends in a panic (the index `rec[5]` is out of range):
it does not return an error. No `Commit` is issued. -/
theorem short_first_row_panics (B : Nat) (lib : Stdlib Time Loc F64 F32) (fails : Nat → Bool)
    (timeLocation : Loc) (stationId : String) (rest : List CsvLine) (dt : Time)
    (h0 : fails 0 = false) (h1 : fails 1 = false)
    (ht : lib.ParseInLocation "2006-01-02 15:00:00" "2023-01-01 5:00:00" timeLocation =
      some dt) :
    importData B lib fails timeLocation stationId (some (CsvLine.fields shortRow :: rest)) =
      (Outcome.panic, [Event.begin true, Event.prepare true, Event.read]) := by
  have hs : ("2023-01-01" ++ " " ++ "5" ++ ":00:00" : String) = "2023-01-01 5:00:00" := by
    decide
  have hd : decodeRow lib timeLocation stationId shortRow = RowResult.panic := by
    simp [decodeRow, shortRow, hs, ht]
  rw [importData, if_neg (by simp [h0]), if_neg (by simp [h1]), importLoop,
    if_neg (by simp), hd]
  rfl

/-- The failing input of C4 with the stand-in library. -/
theorem short_first_row_panics_witness :
    noFail 0 = false ∧ noFail 1 = false ∧
      sampleLib.ParseInLocation "2006-01-02 15:00:00" "2023-01-01 5:00:00" () =
        some "2023-01-01 5:00:00" ∧
      importData INSERT_STATION_DATA_BATCH_SIZE sampleLib noFail () "10637"
          (some (CsvLine.fields shortRow :: [])) =
        (Outcome.panic, [Event.begin true, Event.prepare true, Event.read]) :=
  ⟨rfl, rfl, rfl,
    short_first_row_panics INSERT_STATION_DATA_BATCH_SIZE sampleLib noFail () "10637" [] _
      rfl rfl rfl⟩

end ClaimsFieldCount

end Meteostat
